import Mathlib

/-!
Verification of the security/validation and data-profiling core of the
Streamlit data-analysis dashboard.

The development shallowly embeds, in Lean 4:

* the regular-expression signatures used by the content scanners
  (`utils/__init__.py`: `SecureFileHandler._security_scan`,
  `utils/security.py`: `SecurityConfig._load_suspicious_patterns`,
  `SecurityConfig._check_for_pii`), as a small executable matcher over a
  pattern datatype covering exactly the constructs those signatures use
  (literals, character classes, `*`, `+`, `?`, bounded repetition and `\b`);
* the upload-time file validator (`SecureFileHandler._validate_file`,
  `_is_safe_filename`);
* the strict upload-time scan (`_security_scan`) and the permissive
  in-session scan (`SecurityConfig.validate_data_content`,
  `_scan_column_for_threats`), with the Python exception paths modelled by
  an `Except` body wrapped by the fail-closed handler;
* the per-identity rate limiter (`SecurityConfig.validate_api_usage`);
* the profiling routines (`DataProcessor.generate_quality_report`,
  `generate_column_profiles`, `clean_data`), with pandas/numpy floating
  point arithmetic idealised over `ℚ` and NaN-producing operations over
  `Option ℚ`.

Tables are modelled column-major: a `DataFrame` is a row count together
with a list of named, dtype-tagged columns whose cells are `null`
(pandas NaN), a string, a rational number, or `bad` (a value whose string
coercion raises, modelling the encoding errors the sources catch).

Two reading notes on the sources.  The stored copy of
`utils/__init__.py` is wrapped in a markdown fence and has every
backslash doubled; its regexes and the backslash test of
`_is_safe_filename` are read with single backslashes, exactly as the
same patterns appear in `utils/security.py` and in the specification.
Presentational string formatting (`f"{x:.2f}%"`, `.round(2)`) is
elided: report fields are the exact rational values being formatted.
-/

/-! ## Character classes (Python `re` semantics, ASCII fragment) -/

/-- `[a-zA-Z0-9]`. -/
def alnum (c : Char) : Bool :=
  (('a' ≤ c && c ≤ 'z') || ('A' ≤ c && c ≤ 'Z') || ('0' ≤ c && c ≤ '9'))

/-- Python `\w` = `[a-zA-Z0-9_]` (ASCII fragment). -/
def wordChar (c : Char) : Bool :=
  alnum c || c = '_'

/-- Python `\s` = `[ \t\n\r\f\v]` (ASCII fragment). -/
def wsChar (c : Char) : Bool :=
  c = ' ' || c = '\t' || c = '\n' || c = '\r' || c = Char.ofNat 11 || c = Char.ofNat 12

/-- Python `\d` = `[0-9]` (ASCII fragment). -/
def digitChar (c : Char) : Bool :=
  '0' ≤ c && c ≤ '9'

/-- Python `.` without `re.DOTALL`: any character except a newline. -/
def dotChar (c : Char) : Bool :=
  c ≠ '\n'

/-! ## Regular-expression matcher

The signature catalogue only uses concatenations of single-character
items, each optionally starred (`*`), optional (`?`) or a word boundary
(`\b`).  `+` and `{n}` / `{n,}` are desugared into these.  Whether a
match exists is unaffected by greedy-versus-lazy repetition, so `.*?`
is represented by the same `star` as `.*`. -/

/-- One item of a pattern: a single-character class, a starred class,
an optional class, or a `\b` word-boundary assertion. -/
inductive RElem where
  | cls (f : Char → Bool)
  | star (f : Char → Bool)
  | opt (f : Char → Bool)
  | bdry

/-- A pattern is a concatenation of items. -/
abbrev RPat := List RElem

/-- The `\b` test between the previous character (if any) and the rest
of the input. -/
def boundaryOK (prev : Option Char) (cs : List Char) : Bool :=
  (match prev with | none => false | some c => wordChar c)
    != (match cs with | [] => false | c :: _ => wordChar c)

/-- Matching of `f*` followed by a continuation `k`: try `k` at the
current position, or consume one `f`-character and repeat. -/
def starMatch (f : Char → Bool) (k : Option Char → List Char → Bool) :
    Option Char → List Char → Bool
  | prev, [] => k prev []
  | prev, c :: cs' => k prev (c :: cs') || (f c && starMatch f k (some c) cs')

/-- Does pattern `p` match a prefix of `cs`?  `prev` is the character
just before `cs` in the full input (for `\b`). -/
def matchElems : RPat → Option Char → List Char → Bool
  | [], _, _ => true
  | RElem.cls _ :: _, _, [] => false
  | RElem.cls f :: rest, _, c :: cs' => f c && matchElems rest (some c) cs'
  | RElem.opt _ :: rest, prev, [] => matchElems rest prev []
  | RElem.opt f :: rest, prev, c :: cs' =>
      matchElems rest prev (c :: cs') || (f c && matchElems rest (some c) cs')
  | RElem.star f :: rest, prev, cs => starMatch f (matchElems rest) prev cs
  | RElem.bdry :: rest, prev, cs => boundaryOK prev cs && matchElems rest prev cs

/-- Does pattern `p` match anywhere in `cs` (Python `re.search`)? -/
def searchElems (p : RPat) (prev : Option Char) (cs : List Char) : Bool :=
  match cs with
  | [] => matchElems p prev []
  | c :: cs' => matchElems p prev (c :: cs') || searchElems p (some c) cs'

/-- Case-sensitive substring/regex search, as used by
`Series.str.contains(pattern, regex=True)` without `case=False`. -/
def reContains (p : RPat) (s : String) : Bool :=
  searchElems p none s.data

/-- Case-insensitive search (`case=False`), modelled by lowercasing the
input; the catalogue patterns below are written in lowercase. -/
def reContainsCI (p : RPat) (s : String) : Bool :=
  searchElems p none (s.data.map Char.toLower)

/-! ## Pattern combinators -/

/-- A literal string, one `cls` per character. -/
def litP (s : String) : RPat :=
  s.data.map (fun c => RElem.cls (fun x => x == c))

/-- `f+` desugars to `f` then `f*`. -/
def plusP (f : Char → Bool) : RPat :=
  [RElem.cls f, RElem.star f]

/-- `f{n}` desugars to `n` copies of `f`. -/
def repP (f : Char → Bool) (n : Nat) : RPat :=
  List.replicate n (RElem.cls f)

/-- `f{n,}` desugars to `n` copies of `f` then `f*`. -/
def atLeastP (f : Char → Bool) (n : Nat) : RPat :=
  repP f n ++ [RElem.star f]

/-- `\s*`. -/
def wsStar : RPat := [RElem.star wsChar]

/-- `\s+`. -/
def wsPlus : RPat := plusP wsChar

/-- `.*` (and `.*?`; existence of a match is the same). -/
def dotStar : RPat := [RElem.star dotChar]

/-- `[^>]*`. -/
def notGtStar : RPat := [RElem.star (fun c => c != '>')]

/-- The apostrophe character `'` (U+0027). -/
def quoteChar : Char := Char.ofNat 39

/-! ## The strict upload-time patterns

`SecureFileHandler._security_scan` (`utils/__init__.py`), list
`suspicious_patterns`, searched with `case=False`. -/

/-- `<script[^>]*>.*?</script>` -/
def pScriptTag : RPat := litP ("<script") ++ notGtStar ++ litP (">") ++ dotStar ++ litP ("</script>")

/-- `javascript:` -/
def pJavascript : RPat := litP ("javascript:")

/-- `vbscript:` -/
def pVbscript : RPat := litP ("vbscript:")

/-- `on\w+\s*=` -/
def pEventHandler : RPat := litP ("on") ++ plusP wordChar ++ wsStar ++ litP ("=")

/-- `SELECT.*FROM` -/
def pSelectFrom : RPat := litP ("select") ++ dotStar ++ litP ("from")

/-- `DROP\s+TABLE` -/
def pDropTable : RPat := litP ("drop") ++ wsPlus ++ litP ("table")

/-- `INSERT\s+INTO` -/
def pInsertInto : RPat := litP ("insert") ++ wsPlus ++ litP ("into")

/-- `UPDATE\s+.*SET` -/
def pUpdateSet : RPat := litP ("update") ++ wsPlus ++ dotStar ++ litP ("set")

/-- `DELETE\s+FROM` -/
def pDeleteFrom : RPat := litP ("delete") ++ wsPlus ++ litP ("from")

/-- The nine patterns of the strict upload-time scan, in source order. -/
def strictPatterns : List RPat :=
  [pScriptTag, pJavascript, pVbscript, pEventHandler,
   pSelectFrom, pDropTable, pInsertInto, pUpdateSet, pDeleteFrom]

/-! ## The permissive in-session patterns

`SecurityConfig._load_suspicious_patterns` (`utils/security.py`),
searched with `case=False` by `_scan_column_for_threats`. -/

/-- `<iframe[^>]*>` -/
def pIframe : RPat := litP ("<iframe") ++ notGtStar ++ litP (">")

/-- `<object[^>]*>` -/
def pObjectTag : RPat := litP ("<object") ++ notGtStar ++ litP (">")

/-- `<embed[^>]*>` -/
def pEmbed : RPat := litP ("<embed") ++ notGtStar ++ litP (">")

/-- `<form[^>]*>` -/
def pForm : RPat := litP ("<form") ++ notGtStar ++ litP (">")

/-- `SELECT\s+.*\s+FROM` -/
def pSelectFromWs : RPat := litP ("select") ++ wsPlus ++ dotStar ++ wsPlus ++ litP ("from")

/-- `UPDATE\s+.*\s+SET` -/
def pUpdateSetWs : RPat := litP ("update") ++ wsPlus ++ dotStar ++ wsPlus ++ litP ("set")

/-- `DROP\s+DATABASE` -/
def pDropDatabase : RPat := litP ("drop") ++ wsPlus ++ litP ("database")

/-- `UNION\s+SELECT` -/
def pUnionSelect : RPat := litP ("union") ++ wsPlus ++ litP ("select")

/-- `OR\s+1\s*=\s*1` -/
def pOr1Eq1 : RPat := litP ("or") ++ wsPlus ++ litP ("1") ++ wsStar ++ litP ("=") ++ wsStar ++ litP ("1")

/-- `'\s*OR\s*'.*'\s*=\s*'` -/
def pQuoteOr : RPat :=
  [RElem.cls (fun x => x == quoteChar)] ++ wsStar ++ litP ("or") ++ wsStar
    ++ [RElem.cls (fun x => x == quoteChar)] ++ dotStar
    ++ [RElem.cls (fun x => x == quoteChar)] ++ wsStar ++ litP ("=") ++ wsStar
    ++ [RElem.cls (fun x => x == quoteChar)]

/-- `;\s*rm\s+-rf` -/
def pRmRf : RPat := litP (";") ++ wsStar ++ litP ("rm") ++ wsPlus ++ litP ("-rf")

/-- `;\s*cat\s+/etc/` -/
def pCatEtc : RPat := litP (";") ++ wsStar ++ litP ("cat") ++ wsPlus ++ litP ("/etc/")

/-- `;\s*wget\s+` -/
def pWget : RPat := litP (";") ++ wsStar ++ litP ("wget") ++ wsPlus

/-- `;\s*curl\s+` -/
def pCurl : RPat := litP (";") ++ wsStar ++ litP ("curl") ++ wsPlus

/-- `\|\s*nc\s+` -/
def pPipeNc : RPat := litP ("|") ++ wsStar ++ litP ("nc") ++ wsPlus

/-- `&&\s*rm\s+` -/
def pAndRm : RPat := litP ("&&") ++ wsStar ++ litP ("rm") ++ wsPlus

/-- `\.\./` -/
def pDotDotSlash : RPat := litP ("../")

/-- `\.\.\\` -/
def pDotDotBackslash : RPat := litP ("..\\")

/-- `/etc/passwd` -/
def pEtcPasswd : RPat := litP ("/etc/passwd")

/-- `/etc/shadow` -/
def pEtcShadow : RPat := litP ("/etc/shadow")

/-- `C:\\Windows` (the regex escapes the backslash). -/
def pCWindows : RPat := litP ("c:\\windows")

/-- `eval\s*\(` -/
def pEvalCall : RPat := litP ("eval") ++ wsStar ++ litP ("(")

/-- `exec\s*\(` -/
def pExecCall : RPat := litP ("exec") ++ wsStar ++ litP ("(")

/-- `system\s*\(` -/
def pSystemCall : RPat := litP ("system") ++ wsStar ++ litP ("(")

/-- `shell_exec\s*\(` -/
def pShellExecCall : RPat := litP ("shell_exec") ++ wsStar ++ litP ("(")

/-- `base64_decode\s*\(` -/
def pBase64Call : RPat := litP ("base64_decode") ++ wsStar ++ litP ("(")

/-- The full catalogue loaded by `_load_suspicious_patterns`, in source
order: XSS, SQL injection, command injection, path traversal, other. -/
def suspiciousPatterns : List RPat :=
  [pScriptTag, pJavascript, pVbscript, pEventHandler, pIframe, pObjectTag, pEmbed, pForm,
   pSelectFromWs, pInsertInto, pUpdateSetWs, pDeleteFrom, pDropTable, pDropDatabase,
   pUnionSelect, pOr1Eq1, pQuoteOr,
   pRmRf, pCatEtc, pWget, pCurl, pPipeNc, pAndRm,
   pDotDotSlash, pDotDotBackslash, pEtcPasswd, pEtcShadow, pCWindows,
   pEvalCall, pExecCall, pSystemCall, pShellExecCall, pBase64Call]

/-! ## The PII patterns

`SecurityConfig._check_for_pii` (`utils/security.py`), searched
case-sensitively. -/

/-- `[a-zA-Z0-9._%+-]` (the local part of the email pattern). -/
def emailLocalChar (c : Char) : Bool :=
  alnum c || c = '.' || c = '_' || c = '%' || c = '+' || c = '-'

/-- `[a-zA-Z0-9.-]` (the domain part of the email pattern). -/
def emailDomainChar (c : Char) : Bool :=
  alnum c || c = '.' || c = '-'

/-- `[a-zA-Z]`. -/
def asciiAlpha (c : Char) : Bool :=
  ('a' ≤ c && c ≤ 'z') || ('A' ≤ c && c ≤ 'Z')

/-- `[a-zA-Z0-9._%+-]+@[a-zA-Z0-9.-]+\.[a-zA-Z]{2,}` -/
def pEmail : RPat :=
  plusP emailLocalChar ++ litP ("@") ++ plusP emailDomainChar ++ litP (".") ++ atLeastP asciiAlpha 2

/-- `[-.]?` -/
def dashDotOpt : RPat := [RElem.opt (fun c => c == '-' || c == '.')]

/-- `\b\d{3}[-.]?\d{3}[-.]?\d{4}\b` -/
def pPhone : RPat :=
  [RElem.bdry] ++ repP digitChar 3 ++ dashDotOpt ++ repP digitChar 3 ++ dashDotOpt
    ++ repP digitChar 4 ++ [RElem.bdry]

/-- `\b\d{3}-\d{2}-\d{4}\b` -/
def pSsn : RPat :=
  [RElem.bdry] ++ repP digitChar 3 ++ litP ("-") ++ repP digitChar 2 ++ litP ("-")
    ++ repP digitChar 4 ++ [RElem.bdry]

/-- `[-\s]?` -/
def dashWsOpt : RPat := [RElem.opt (fun c => c == '-' || wsChar c)]

/-- `\b\d{4}[-\s]?\d{4}[-\s]?\d{4}[-\s]?\d{4}\b` -/
def pCreditCard : RPat :=
  [RElem.bdry] ++ repP digitChar 4 ++ dashWsOpt ++ repP digitChar 4 ++ dashWsOpt
    ++ repP digitChar 4 ++ dashWsOpt ++ repP digitChar 4 ++ [RElem.bdry]

/-- The PII patterns with their dict keys, in source order. -/
def piiPatterns : List (String × RPat) :=
  [(("email"), pEmail), (("phone"), pPhone), (("ssn"), pSsn), (("credit_card"), pCreditCard)]

/-! ## Data model

A pandas `DataFrame` is modelled column-major.  A cell is `null`
(pandas NaN), a string, a rational number, or `bad` — a Python object
whose coercion to `str` raises, modelling the malformed-data /
encoding-error exception paths that the sources catch. -/

inductive Cell where
  | null
  | str (s : String)
  | num (q : ℚ)
  | bad (msg : String)
deriving DecidableEq

/-- The pandas dtype of a column, as used by `select_dtypes`. -/
inductive Dtype where
  | numeric
  | object
  | datetime
  | boolean
deriving DecidableEq

structure Column where
  name : String
  dtype : Dtype
  cells : List Cell
deriving DecidableEq

structure DataFrame where
  nrows : Nat
  cols : List Column
deriving DecidableEq

/-- Well-formedness: all columns have the table's row count
(the pandas `DataFrame` invariant). -/
def DataFrame.wf (df : DataFrame) : Prop :=
  ∀ c ∈ df.cols, c.cells.length = df.nrows

instance (df : DataFrame) : Decidable df.wf := by
  unfold DataFrame.wf; infer_instance

/-- `df.select_dtypes(include=['object']).columns`. -/
def objectCols (df : DataFrame) : List Column :=
  df.cols.filter (fun c => c.dtype = Dtype.object)

/-- `df.select_dtypes(include=['number']).columns`. -/
def numericCols (df : DataFrame) : List Column :=
  df.cols.filter (fun c => c.dtype = Dtype.numeric)

/-- `df.select_dtypes(include=['object', 'category']).columns`
(the model has no separate `category` dtype). -/
def categoricalCols (df : DataFrame) : List Column :=
  objectCols df

/-- `str(x)` for a single non-null cell; raises on a `bad` cell. -/
def cellToStr : Cell → Except String String
  | Cell.null => Except.ok ("nan")
  | Cell.str s => Except.ok s
  | Cell.num q => Except.ok (toString q.num)
  | Cell.bad m => Except.error m

/-- Element-wise string coercion; the first un-coercible cell raises. -/
def strsOf : List Cell → Except String (List String)
  | [] => Except.ok []
  | c :: cs => do
    let s ← cellToStr c
    let ss ← strsOf cs
    Except.ok (s :: ss)

/-- `series.dropna().astype(str)`: drop nulls, coerce the rest to
strings; the first un-coercible cell raises. -/
def colStrs (cells : List Cell) : Except String (List String) :=
  strsOf (cells.filter (fun c => c ≠ Cell.null))

/-- The rational values of a column (pandas numeric operations skip NaN). -/
def numValues (cells : List Cell) : List ℚ :=
  cells.filterMap (fun c => match c with | Cell.num q => some q | _ => none)

/-- `series.max()` over naturals; `none` is the NaN of an empty series. -/
def listMaxN : List Nat → Option Nat
  | [] => none
  | x :: xs => match listMaxN xs with
    | none => some x
    | some m => some (max x m)

/-! ## `SecureFileHandler` (`utils/__init__.py`) -/

/-- `MAX_FILE_SIZE = 50 * 1024 * 1024`. -/
def MAX_FILE_SIZE : Nat := 50 * 1024 * 1024

/-- `ALLOWED_EXTENSIONS = ['.xlsx']`. -/
def ALLOWED_EXTENSIONS : List String := [(".xlsx")]

/-- `ALLOWED_MIME_TYPES`. -/
def ALLOWED_MIME_TYPES : List String :=
  [("application/vnd.openxmlformats-officedocument.spreadsheetml.sheet")]

/-- Upload metadata as Streamlit hands it to `_validate_file`:
`uploaded_file.size`, `.name`, `.type`. -/
structure UploadMeta where
  size : Nat
  name : String
  type : String

/-- The distinct messages returned by `_validate_file`, one per return
site (the exact f-string texts are presentational and elided). -/
inductive VMessage where
  | sizeExceeds
  | badExtension (ext : String)
  | badMime (t : String)
  | unsafeFilename
  | emptyFile
  | validationOk
deriving DecidableEq

structure Verdict where
  valid : Bool
  message : VMessage
deriving DecidableEq

/-- Python `name.split('.')`: split at every dot. -/
def splitDotAux (cur : List Char) : List Char → List (List Char)
  | [] => [cur.reverse]
  | c :: cs => if c = '.' then cur.reverse :: splitDotAux [] cs else splitDotAux (c :: cur) cs

/-- `'.' + uploaded_file.name.split('.')[-1].lower()`. -/
def fileExtension (name : String) : String :=
  "." ++ String.mk (((splitDotAux [] name.data).getLastD []).map Char.toLower)

/-- The characters of `r'^[a-zA-Z0-9._\-\s()]+$'`. -/
def safeFilenameChar (c : Char) : Bool :=
  alnum c || c = '.' || c = '_' || c = '-' || wsChar c || c = '(' || c = ')'

/-- Does `l` start with `pre`? -/
def listStartsWith : List Char → List Char → Bool
  | _, [] => true
  | [], _ :: _ => false
  | c :: cs, d :: ds => c == d && listStartsWith cs ds

/-- Does `l` contain `sub` as a contiguous sublist? -/
def listHasSub (l sub : List Char) : Bool :=
  match l with
  | [] => listStartsWith [] sub
  | _ :: cs => listStartsWith l sub || listHasSub cs sub

/-- Substring test (`'..' in filename`). -/
def strContainsSub (hay sub : String) : Bool :=
  listHasSub hay.data sub.data

/-- `SecureFileHandler._is_safe_filename`: reject `..`, `/`, `\`;
otherwise require every character to be in the safe class (the regex
`^[...]+$`, so at least one character). -/
def is_safe_filename (filename : String) : Bool :=
  if strContainsSub filename (("..")) || strContainsSub filename (("/"))
      || strContainsSub filename (("\\")) then
    false
  else
    filename.data ≠ [] && filename.data.all safeFilenameChar

/-- `SecureFileHandler._validate_file`: the five checks, in source
order, first failure wins. -/
def validate_file (f : UploadMeta) : Verdict :=
  if f.size > MAX_FILE_SIZE then
    ⟨false, VMessage.sizeExceeds⟩
  else if fileExtension f.name ∉ ALLOWED_EXTENSIONS then
    ⟨false, VMessage.badExtension (fileExtension f.name)⟩
  else if f.type ∉ ALLOWED_MIME_TYPES then
    ⟨false, VMessage.badMime f.type⟩
  else if ¬ is_safe_filename f.name then
    ⟨false, VMessage.unsafeFilename⟩
  else if f.size = 0 then
    ⟨false, VMessage.emptyFile⟩
  else
    ⟨true, VMessage.validationOk⟩

/-! ## `SecureFileHandler._security_scan` (strict upload-time scan) -/

/-- The messages of `_security_scan`, one per return site. -/
inductive SMessage where
  | suspiciousContent (col : String)
  | cellTooLarge (col : String)
  | scanPassed
  | scanFailed (err : String)
deriving DecidableEq

structure ScanRes where
  safe : Bool
  message : SMessage
deriving DecidableEq

/-- `max_cell_size = 10000` in `_security_scan`. -/
def max_cell_size : Nat := 10000

/-- First loop of `_security_scan`: over the object columns, test every
pattern against every (string-coerced, non-null) cell; the first column
with a match is returned.  `astype(str)` may raise. -/
def scanPatternLoop : List Column → Except String (Option String)
  | [] => Except.ok none
  | col :: rest => do
    let strs ← colStrs col.cells
    if strictPatterns.any (fun p => strs.any (fun s => reContainsCI p s)) then
      Except.ok (some col.name)
    else
      scanPatternLoop rest

/-- Second loop of `_security_scan`: over all columns of object dtype,
flag the first whose maximum coerced cell length exceeds
`max_cell_size` (the `max()` of an empty series is NaN, and
`NaN > limit` is false). -/
def scanSizeLoop : List Column → Except String (Option String)
  | [] => Except.ok none
  | col :: rest =>
    if col.dtype = Dtype.object then do
      let strs ← colStrs col.cells
      match listMaxN (strs.map String.length) with
      | some m =>
        if m > max_cell_size then Except.ok (some col.name) else scanSizeLoop rest
      | none => scanSizeLoop rest
    else
      scanSizeLoop rest

/-- The body of `_security_scan` (everything inside its `try`). -/
def security_scan_body (df : DataFrame) : Except String ScanRes :=
  match scanPatternLoop (objectCols df) with
  | Except.error e => Except.error e
  | Except.ok (some col) => Except.ok ⟨false, SMessage.suspiciousContent col⟩
  | Except.ok none =>
    match scanSizeLoop df.cols with
    | Except.error e => Except.error e
    | Except.ok (some col) => Except.ok ⟨false, SMessage.cellTooLarge col⟩
    | Except.ok none => Except.ok ⟨true, SMessage.scanPassed⟩

/-- `SecureFileHandler._security_scan`: the `except` clause converts any
internal failure into a fail-closed unsafe verdict. -/
def security_scan (df : DataFrame) : ScanRes :=
  match security_scan_body df with
  | Except.ok r => r
  | Except.error e => ⟨false, SMessage.scanFailed e⟩

/-! ## `SecurityConfig` (`utils/security.py`) -/

/-- The `SecurityLimits` dataclass with its defaults. -/
structure SecurityLimits where
  MAX_FILE_SIZE_MB : Nat := 50
  MAX_CELL_SIZE_CHARS : Nat := 10000
  MAX_COLUMNS : Nat := 1000
  MAX_ROWS : Nat := 1000000
  MAX_API_CALLS_PER_MINUTE : Nat := 10
  SESSION_TIMEOUT_HOURS : Nat := 2

/-- `self.limits = SecurityLimits()`. -/
def limits : SecurityLimits := {}

/-- Body of `_scan_column_for_threats` (inside its `try`): does any
catalogue pattern match any string-coerced non-null cell? -/
def scan_column_for_threats_body (cells : List Cell) : Except String Bool := do
  let strs ← colStrs cells
  Except.ok (suspiciousPatterns.any (fun p => strs.any (fun s => reContainsCI p s)))

/-- `SecurityConfig._scan_column_for_threats`: on an internal exception
the column is reported as a threat (`return True  # err on the side of
caution`). -/
def scan_column_for_threats (cells : List Cell) : Bool :=
  match scan_column_for_threats_body cells with
  | Except.ok b => b
  | Except.error _ => true

/-- One pass of `_check_for_pii` for a single column: the PII warnings
it appends, in pattern order; `astype(str)` may raise. -/
def piiColWarnings (col : Column) : Except String (List (String × String)) := do
  let strs ← colStrs col.cells
  Except.ok ((piiPatterns.filter
    (fun pr => strs.any (fun s => reContains pr.2 s))).map
    (fun pr => (col.name, pr.1)))

/-- The loop of `_check_for_pii` over the string columns. -/
def piiLoop : List Column → Except String (List (String × String))
  | [] => Except.ok []
  | col :: rest => do
    let ws ← piiColWarnings col
    let rest' ← piiLoop rest
    Except.ok (ws ++ rest')

/-- `SecurityConfig._check_for_pii`: for every object column and every
PII pattern that matches some cell, a `(column, pii_type)` warning. -/
def check_for_pii (df : DataFrame) : Except String (List (String × String)) :=
  piiLoop (objectCols df)

/-- The cell-size warnings of `validate_data_content` (its second loop
over the string columns). -/
def vdcSizeWarnings : List Column → Except String (List String)
  | [] => Except.ok []
  | col :: rest => do
    let strs ← colStrs col.cells
    let ws ← vdcSizeWarnings rest
    match listMaxN (strs.map String.length) with
    | some m =>
      if m > limits.MAX_CELL_SIZE_CHARS then Except.ok (col.name :: ws) else Except.ok ws
    | none => Except.ok ws

/-- The result record built by `validate_data_content`.  Warnings are
tagged by their source (threat / oversized-cell / PII) instead of the
presentational f-string texts. -/
inductive VDCWarning where
  | suspiciousColumn (col : String)
  | largeCells (col : String)
  | pii (col : String) (piiType : String)
deriving DecidableEq

inductive VDCError where
  | tooManyRows
  | tooManyColumns
  | validationError (err : String)
deriving DecidableEq

structure VDCResult where
  safe : Bool
  warnings : List VDCWarning
  errors : List VDCError
  suspicious_columns : List String
deriving DecidableEq

/-- `SecurityConfig.validate_data_content`.  The record is built
incrementally exactly as in the source; an exception raised in the
cell-size or PII loops is caught by the surrounding `except`, which
keeps the fields accumulated so far, sets `safe but False` and appends a
validation error.  (`_scan_column_for_threats` catches its own
exceptions and never raises.) -/
def validate_data_content (df : DataFrame) : VDCResult :=
  let rowBad : Bool := df.nrows > limits.MAX_ROWS
  let colBad : Bool := df.cols.length > limits.MAX_COLUMNS
  let errors0 : List VDCError :=
    (if rowBad then [VDCError.tooManyRows] else [])
      ++ (if colBad then [VDCError.tooManyColumns] else [])
  let safe0 : Bool := !(rowBad || colBad)
  let suspicious := (objectCols df).filter (fun col => scan_column_for_threats col.cells)
  let warnings1 : List VDCWarning :=
    suspicious.map (fun col => VDCWarning.suspiciousColumn col.name)
  let r1 : VDCResult := ⟨safe0, warnings1, errors0, suspicious.map Column.name⟩
  match vdcSizeWarnings (objectCols df) with
  | Except.error e =>
    { r1 with safe := false, errors := r1.errors ++ [VDCError.validationError e] }
  | Except.ok sizeWs =>
    let r2 : VDCResult :=
      { r1 with warnings := r1.warnings ++ sizeWs.map VDCWarning.largeCells }
    match check_for_pii df with
    | Except.error e =>
      { r2 with safe := false, errors := r2.errors ++ [VDCError.validationError e] }
    | Except.ok piiWs =>
      { r2 with warnings := r2.warnings ++ piiWs.map (fun pr => VDCWarning.pii pr.1 pr.2) }

/-! ## `SecurityConfig.validate_api_usage` (rate limiter)

Python dicts are modelled as association lists with replace-on-insert;
`time.time()` is idealised as a non-negative rational. -/

/-- `d.get(k)` on an association list. -/
def alistGet {K V : Type} [BEq K] (k : K) : List (K × V) → Option V
  | [] => none
  | (k', v) :: rest => if k' == k then some v else alistGet k rest

/-- `d[k] = v` on an association list (replace, or append if absent). -/
def alistPut {K V : Type} [BEq K] (k : K) (v : V) : List (K × V) → List (K × V)
  | [] => [(k, v)]
  | (k', v') :: rest => if k' == k then (k, v) :: rest else (k', v') :: alistPut k v rest

/-- One identity's counter map: minute bucket ↦ call count. -/
abbrev MinuteMap := List (Int × Nat)

/-- `self.api_call_tracker`. -/
abbrev Tracker := List (String × MinuteMap)

/-- The result of one rate-limiter check. -/
structure RLResult where
  allowed : Bool
  retry_after : Option ℚ
  remaining_calls : Option Int
deriving DecidableEq

/-- `SecurityConfig.validate_api_usage(user_id)` at time `t`
(`time.time()`), returning the decision and the updated tracker.
`current_minute = int(t // 60)`; buckets older than `current_minute - 1`
are pruned in place; at `MAX_API_CALLS_PER_MINUTE` calls the request is
denied with `retry_after = 60 - (t % 60)`, otherwise the bucket is
incremented and `remaining = max - new_count` is reported. -/
def validate_api_usage (tracker : Tracker) (user_id : String) (t : ℚ) :
    RLResult × Tracker :=
  let current_minute : Int := ⌊t / 60⌋
  let tracker1 :=
    if (alistGet user_id tracker).isNone then alistPut user_id [] tracker else tracker
  let user_tracker := (alistGet user_id tracker1).getD []
  let pruned := user_tracker.filter (fun p => ¬ (p.1 < current_minute - 1))
  let current_calls := (alistGet current_minute pruned).getD 0
  if current_calls ≥ limits.MAX_API_CALLS_PER_MINUTE then
    (⟨false, some (60 - (t - 60 * current_minute)), none⟩,
     alistPut user_id pruned tracker1)
  else
    (⟨true, none, some ((limits.MAX_API_CALLS_PER_MINUTE : Int) - (current_calls + 1))⟩,
     alistPut user_id (alistPut current_minute (current_calls + 1) pruned) tracker1)

/-- A sequence of checks for one identity at the given times, returning
the per-call results and threading the tracker. -/
def runCalls (tracker : Tracker) (user_id : String) : List ℚ → List RLResult × Tracker
  | [] => ([], tracker)
  | t :: ts =>
    let (r, tracker') := validate_api_usage tracker user_id t
    let (rs, tracker'') := runCalls tracker' user_id ts
    (r :: rs, tracker'')

/-! ## `DataProcessor` (`utils/data_processor.py`) -/

/-- Insertion sort over `ℚ` (enough for pandas `quantile`/`median`,
which sort the non-null values). -/
def insertSorted (x : ℚ) : List ℚ → List ℚ
  | [] => [x]
  | y :: ys => if x ≤ y then x :: y :: ys else y :: insertSorted x ys

def sortQ : List ℚ → List ℚ
  | [] => []
  | x :: xs => insertSorted x (sortQ xs)

/-- `series.quantile(q)` with pandas' default linear interpolation over
the sorted non-null values; NaN (`none`) on an empty series. -/
def quantile (q : ℚ) (vals : List ℚ) : Option ℚ :=
  match sortQ vals with
  | [] => none
  | s =>
    let pos : ℚ := ((s.length : ℚ) - 1) * q
    let lo := (⌊pos⌋).toNat
    let hi := (⌈pos⌉).toNat
    some (s.getD lo 0 + (pos - (⌊pos⌋ : ℚ)) * (s.getD hi 0 - s.getD lo 0))

/-- `series.median()` = the 0.5 quantile. -/
def medianQ (vals : List ℚ) : Option ℚ :=
  quantile (1/2) vals

/-- The Tukey/IQR outlier count of a numeric column, shared by
`generate_quality_report` and `generate_column_profiles` (the two sites
duplicate this computation verbatim): `Q1/Q3` are the 0.25/0.75
quantiles, bounds `Q1 - 1.5*IQR` and `Q3 + 1.5*IQR`, and a row counts
when its value is strictly outside the bounds (NaN comparisons are
false, so null cells never count; on an empty column the bounds are NaN
and the count is 0). -/
def colOutlierCount (cells : List Cell) : Nat :=
  let vals := numValues cells
  match quantile (1/4) vals, quantile (3/4) vals with
  | some q1, some q3 =>
    let iqr := q3 - q1
    let lower_bound := q1 - 3/2 * iqr
    let upper_bound := q3 + 3/2 * iqr
    (vals.filter (fun v => v < lower_bound || upper_bound < v)).length
  | _, _ => 0

/-- `df.isnull().sum()` for one column. -/
def colNullCount (cells : List Cell) : Nat :=
  (cells.filter (fun c => c = Cell.null)).length

/-- `df.isnull().sum().sum()`. -/
def totalNulls (df : DataFrame) : Nat :=
  (df.cols.map (fun c => colNullCount c.cells)).sum

/-- `series.count()`: non-null cells. -/
def colCount (cells : List Cell) : Nat :=
  (cells.filter (fun c => c ≠ Cell.null)).length

/-- `series.nunique()`: distinct non-null values. -/
def colNunique (cells : List Cell) : Nat :=
  ((cells.filter (fun c => c ≠ Cell.null)).dedup).length

/-- Row `i` of the table (for `duplicated` / `drop_duplicates`). -/
def dfRow (df : DataFrame) (i : Nat) : List Cell :=
  df.cols.map (fun c => c.cells.getD i Cell.null)

def dfRows (df : DataFrame) : List (List Cell) :=
  (List.range df.nrows).map (dfRow df)

/-- `df.duplicated().sum()`: rows equal to an earlier row. -/
def dupCountAux (seen : List (List Cell)) : List (List Cell) → Nat
  | [] => 0
  | r :: rs => (if r ∈ seen then 1 else 0) + dupCountAux (r :: seen) rs

def duplicateRowCount (df : DataFrame) : Nat :=
  dupCountAux [] (dfRows df)

/-- The fields of the quality report (`generate_quality_report`).
Percentages are rationals; `none` is numpy NaN, which the division
produces when the table has no rows or no columns and `min()` /
`np.mean` produce on empty inputs. -/
structure QualityReport where
  missing_data_percentage : Option ℚ
  duplicate_rows : Nat
  lowest_column_completeness : Option ℚ
  avg_categorical_uniqueness : Option ℚ
  potential_outliers : Nat
deriving DecidableEq

/-- `series.min()` over rationals; NaN on an empty list. -/
def listMinQ : List ℚ → Option ℚ
  | [] => none
  | x :: xs => match listMinQ xs with
    | none => some x
    | some m => some (min x m)

/-- `DataProcessor.generate_quality_report`. -/
def generate_quality_report (df : DataFrame) : QualityReport :=
  let denom : ℚ := (df.nrows : ℚ) * (df.cols.length : ℚ)
  let missing : Option ℚ :=
    if denom = 0 then none else some (((totalNulls df : ℚ) / denom) * 100)
  let completeness : List ℚ :=
    if df.nrows = 0 then []
    else df.cols.map (fun c => ((colCount c.cells : ℚ) / (df.nrows : ℚ)) * 100)
  let uniq : Option ℚ :=
    match categoricalCols df with
    | [] => none
    | cs =>
      if df.nrows = 0 then none
      else some (((cs.map (fun c => ((colNunique c.cells : ℚ) / (df.nrows : ℚ)) * 100)).sum)
                  / (cs.length : ℚ))
  { missing_data_percentage := missing
    duplicate_rows := duplicateRowCount df
    lowest_column_completeness := listMinQ completeness
    avg_categorical_uniqueness := uniq
    potential_outliers := ((numericCols df).map (fun c => colOutlierCount c.cells)).sum }

/-! ## `DataProcessor.generate_column_profiles` -/

/-- `series.mode()` for an object column: pandas returns the most
frequent non-null values sorted ascending; `.iloc[0]` is therefore the
lexicographically smallest among them.  `none` when there are no
non-null values. -/
def strMode (cells : List Cell) : Option String :=
  let strs := cells.filterMap (fun c => match c with | Cell.str s => some s | _ => none)
  match strs with
  | [] => none
  | _ =>
    let maxCount := listMaxN (strs.map (fun s => (strs.filter (fun u => u == s)).length))
    let best := strs.filter (fun s =>
      some (strs.filter (fun u => u == s)).length == maxCount)
    match best.min? with
    | some m => some m
    | none => none

/-- The per-column profile (`generate_column_profiles`).  Numeric
statistics are `none` for non-numeric columns (and NaN-producing empty
aggregations are `none`); `std` (a square root, irrational in general)
is not representable over `ℚ` and is omitted — no claim refers to it. -/
structure ColumnProfile where
  name : String
  dtype : Dtype
  count : Nat
  null_count : Nat
  null_percentage : Option ℚ
  unique_count : Nat
  unique_percentage : Option ℚ
  mean : Option ℚ
  minv : Option ℚ
  maxv : Option ℚ
  median : Option ℚ
  q25 : Option ℚ
  q75 : Option ℚ
  outlier_count : Option Nat
  most_frequent : Option String
deriving DecidableEq

/-- `series.mean()`. -/
def listMeanQ (vals : List ℚ) : Option ℚ :=
  match vals with
  | [] => none
  | _ => some (vals.sum / (vals.length : ℚ))

/-- `series.max()` over rationals; NaN on an empty list. -/
def listMaxQ : List ℚ → Option ℚ
  | [] => none
  | x :: xs => match listMaxQ xs with
    | none => some x
    | some m => some (max x m)

/-- The profile of one column of a table with `nrows` rows
(`generate_column_profiles` body). -/
def profileColumn (nrows : Nat) (col : Column) : ColumnProfile :=
  let pct : Nat → Option ℚ := fun k =>
    if nrows = 0 then none else some (((k : ℚ) / (nrows : ℚ)) * 100)
  let vals := numValues col.cells
  { name := col.name
    dtype := col.dtype
    count := colCount col.cells
    null_count := colNullCount col.cells
    null_percentage := pct (colNullCount col.cells)
    unique_count := colNunique col.cells
    unique_percentage := pct (colNunique col.cells)
    mean := if col.dtype = Dtype.numeric then listMeanQ vals else none
    minv := if col.dtype = Dtype.numeric then listMinQ vals else none
    maxv := if col.dtype = Dtype.numeric then listMaxQ vals else none
    median := if col.dtype = Dtype.numeric then medianQ vals else none
    q25 := if col.dtype = Dtype.numeric then quantile (1/4) vals else none
    q75 := if col.dtype = Dtype.numeric then quantile (3/4) vals else none
    outlier_count := if col.dtype = Dtype.numeric then some (colOutlierCount col.cells) else none
    most_frequent := if col.dtype = Dtype.object then strMode col.cells else none }

/-- `DataProcessor.generate_column_profiles`. -/
def generate_column_profiles (df : DataFrame) : List ColumnProfile :=
  df.cols.map (profileColumn df.nrows)

/-! ## `DataProcessor.clean_data`

The cleaning options and the three value-level transformations, plus a
small heap of pandas objects making the source's mutation discipline
explicit: `df.copy()` allocates, `drop_duplicates` allocates and
rebinds, `fillna(..., inplace=True)` writes through the reference. -/

structure CleaningOptions where
  remove_duplicates : Bool
  fill_numeric_missing : Bool
  fill_categorical_missing : Bool
  remove_outliers : Bool
deriving DecidableEq

/-- The default options used when `cleaning_options is None`. -/
def defaultCleaningOptions : CleaningOptions :=
  ⟨true, false, false, false⟩

/-- `df.drop_duplicates()`: keep each row's first occurrence. -/
def dropDupAux (seen : List (List Cell)) : List (List Cell) → List (List Cell)
  | [] => []
  | r :: rs => if r ∈ seen then dropDupAux seen rs else r :: dropDupAux (r :: seen) rs

def dropDuplicateRows (rows : List (List Cell)) : List (List Cell) :=
  dropDupAux [] rows

/-- Rebuild a table from rows, preserving column names and dtypes. -/
def tableFromRows (cols : List Column) (rows : List (List Cell)) : DataFrame :=
  { nrows := rows.length
    cols := (List.range cols.length).map (fun j =>
      { name := ((cols.getD j ⟨("") , Dtype.object, []⟩).name)
        dtype := ((cols.getD j ⟨("") , Dtype.object, []⟩).dtype)
        cells := rows.map (fun r => r.getD j Cell.null) }) }

/-- `cleaned_df.drop_duplicates()` at the table level. -/
def dropDuplicatesDF (df : DataFrame) : DataFrame :=
  tableFromRows df.cols (dropDuplicateRows (dfRows df))

/-- `series.fillna(v)`. -/
def fillNulls (v : Cell) (cells : List Cell) : List Cell :=
  cells.map (fun c => if c = Cell.null then v else c)

/-- Fill the nulls of every numeric column with that column's median
(`fillna(median_value, inplace=True)` guarded by `isnull().any()`;
the median of an all-null column is NaN and filling with NaN changes
nothing). -/
def fillNumericMissing (df : DataFrame) : DataFrame :=
  { df with cols := df.cols.map (fun c =>
      if c.dtype = Dtype.numeric ∧ colNullCount c.cells ≠ 0 then
        match medianQ (numValues c.cells) with
        | some m => { c with cells := fillNulls (Cell.num m) c.cells }
        | none => c
      else c) }

/-- Fill the nulls of every categorical column with that column's mode,
or the literal `'Unknown'` when the column has no mode. -/
def fillCategoricalMissing (df : DataFrame) : DataFrame :=
  { df with cols := df.cols.map (fun c =>
      if c.dtype = Dtype.object ∧ colNullCount c.cells ≠ 0 then
        match strMode c.cells with
        | some m => { c with cells := fillNulls (Cell.str m) c.cells }
        | none => { c with cells := fillNulls (Cell.str ("Unknown")) c.cells }
      else c) }

/-- The heap of live pandas DataFrame objects; a reference is an index. -/
structure PdHeap where
  objs : List DataFrame

/-- Dereference (panic-free: a dangling reference reads an empty frame). -/
def PdHeap.read (h : PdHeap) (r : Nat) : DataFrame :=
  h.objs.getD r ⟨0, []⟩

/-- Allocate a fresh object (`df.copy()`, or the result of
`drop_duplicates`). -/
def PdHeap.alloc (h : PdHeap) (df : DataFrame) : PdHeap × Nat :=
  (⟨h.objs ++ [df]⟩, h.objs.length)

/-- Overwrite the object at `r` (`fillna(..., inplace=True)`). -/
def PdHeap.write (h : PdHeap) (r : Nat) (df : DataFrame) : PdHeap :=
  ⟨h.objs.set r df⟩

/-- `DataProcessor.clean_data(df, options)` on the heap: copy the input,
optionally rebind to a de-duplicated copy, then fill numeric and
categorical nulls in place; returns the reference to the cleaned
frame. -/
def clean_data (h : PdHeap) (r : Nat) (opts : CleaningOptions) : PdHeap × Nat :=
  let (h1, rc) := h.alloc (h.read r)
  let (h2, rc2) :=
    if opts.remove_duplicates then
      h1.alloc (dropDuplicatesDF (h1.read rc))
    else (h1, rc)
  let h3 :=
    if opts.fill_numeric_missing then
      h2.write rc2 (fillNumericMissing (h2.read rc2))
    else h2
  let h4 :=
    if opts.fill_categorical_missing then
      h3.write rc2 (fillCategoricalMissing (h3.read rc2))
    else h3
  (h4, rc2)

/-! ## Matcher lemmas

A mandatory single-character item of a pattern must be satisfied by some
character of any input the pattern matches; hence a pattern containing a
mandatory item whose class rejects every character of a string cannot be
found in that string. -/

theorem starMatch_exists {f : Char → Bool} {k : Option Char → List Char → Bool}
    {prev : Option Char} {cs : List Char} (h : starMatch f k prev cs = true) :
    ∃ prev' cs', cs' <:+ cs ∧ k prev' cs' = true := by
  induction cs generalizing prev with
  | nil => exact ⟨prev, [], List.suffix_refl _, h⟩
  | cons c cs' ih =>
    rw [starMatch] at h
    rcases Bool.or_eq_true_iff.mp h with h1 | h2
    · exact ⟨prev, c :: cs', List.suffix_refl _, h1⟩
    · obtain ⟨prev', cs'', hsuf, hk⟩ := ih (Bool.and_eq_true_iff.mp h2).2
      exact ⟨prev', cs'', hsuf.trans (List.suffix_cons c cs'), hk⟩

theorem matchElems_requires {p : RPat} {f : Char → Bool}
    (hmem : RElem.cls f ∈ p) :
    ∀ {prev : Option Char} {cs : List Char}, matchElems p prev cs = true →
      ∃ c ∈ cs, f c = true := by
  induction p with
  | nil => cases hmem
  | cons e rest ih =>
    intro prev cs h
    cases e with
    | cls g =>
      cases cs with
      | nil => cases h
      | cons c cs' =>
        rw [matchElems] at h
        obtain ⟨hg, hrest⟩ := Bool.and_eq_true_iff.mp h
        rcases List.mem_cons.mp hmem with heq | hmem'
        · obtain rfl : f = g := by injection heq
          exact ⟨c, List.mem_cons_self c cs', hg⟩
        · obtain ⟨c', hc', hfc'⟩ := ih hmem' hrest
          exact ⟨c', List.mem_cons_of_mem c hc', hfc'⟩
    | opt g =>
      have hmem' : RElem.cls f ∈ rest := by
        rcases List.mem_cons.mp hmem with heq | hmem' <;> [cases heq; exact hmem']
      cases cs with
      | nil => exact ih hmem' h
      | cons c cs' =>
        rw [matchElems] at h
        rcases Bool.or_eq_true_iff.mp h with h1 | h2
        · exact ih hmem' h1
        · obtain ⟨c', hc', hfc'⟩ := ih hmem' (Bool.and_eq_true_iff.mp h2).2
          exact ⟨c', List.mem_cons_of_mem c hc', hfc'⟩
    | star g =>
      have hmem' : RElem.cls f ∈ rest := by
        rcases List.mem_cons.mp hmem with heq | hmem' <;> [cases heq; exact hmem']
      rw [matchElems] at h
      obtain ⟨prev', cs'', hsuf, hk⟩ := starMatch_exists h
      obtain ⟨c', hc', hfc'⟩ := ih hmem' hk
      exact ⟨c', hsuf.subset hc', hfc'⟩
    | bdry =>
      have hmem' : RElem.cls f ∈ rest := by
        rcases List.mem_cons.mp hmem with heq | hmem' <;> [cases heq; exact hmem']
      rw [matchElems] at h
      exact ih hmem' (Bool.and_eq_true_iff.mp h).2

theorem searchElems_requires {p : RPat} {f : Char → Bool}
    (hmem : RElem.cls f ∈ p) :
    ∀ {prev : Option Char} {cs : List Char}, searchElems p prev cs = true →
      ∃ c ∈ cs, f c = true := by
  intro prev cs
  induction cs generalizing prev with
  | nil => exact fun h => matchElems_requires hmem h
  | cons c cs' ih =>
    intro h
    rw [searchElems] at h
    rcases Bool.or_eq_true_iff.mp h with h1 | h2
    · exact matchElems_requires hmem h1
    · obtain ⟨c', hc', hfc'⟩ := ih h2
      exact ⟨c', List.mem_cons_of_mem c hc', hfc'⟩

/-- A pattern with a mandatory item rejecting every character of `s`
is not found in `s` (case-sensitive search). -/
theorem reContains_eq_false {p : RPat} {f : Char → Bool} {s : String}
    (hmem : RElem.cls f ∈ p) (hchars : ∀ c ∈ s.data, f c = false) :
    reContains p s = false := by
  cases h : reContains p s with
  | false => rfl
  | true =>
    obtain ⟨c, hc, hfc⟩ := searchElems_requires hmem h
    rw [hchars c hc] at hfc
    cases hfc

/-- The same for case-insensitive search: the class must reject every
lowercased character of `s`. -/
theorem reContainsCI_eq_false {p : RPat} {f : Char → Bool} {s : String}
    (hmem : RElem.cls f ∈ p)
    (hchars : ∀ c ∈ s.data.map Char.toLower, f c = false) :
    reContainsCI p s = false := by
  cases h : reContainsCI p s with
  | false => rfl
  | true =>
    obtain ⟨c, hc, hfc⟩ := searchElems_requires hmem h
    rw [hchars c hc] at hfc
    cases hfc

/-! ## Character lemmas -/

theorem toNat_ofNat_valid (n : Nat) (h : n < 55296) : (Char.ofNat n).toNat = n := by
  rw [Char.ofNat, dif_pos (Or.inl h)]
  rfl

theorem char_le_iff (a b : Char) : a ≤ b ↔ a.toNat ≤ b.toNat := by
  rw [Char.le_def, UInt32.le_def, BitVec.le_def]
  rfl

/-- ASCII lowercasing preserves alphanumericity. -/
theorem alnum_toLower {c : Char} (h : alnum c = true) : alnum (Char.toLower c) = true := by
  have hdef : Char.toLower c =
      if c.toNat ≥ 65 ∧ c.toNat ≤ 90 then Char.ofNat (c.toNat + 32) else c := rfl
  rw [hdef]
  by_cases hc : c.toNat ≥ 65 ∧ c.toNat ≤ 90
  · rw [if_pos hc]
    have hv : (Char.ofNat (c.toNat + 32)).toNat = c.toNat + 32 :=
      toNat_ofNat_valid _ (by omega)
    have e1 : ('a').toNat = 97 := rfl
    have e2 : ('z').toNat = 122 := rfl
    have e3 : ('A').toNat = 65 := rfl
    have e4 : ('Z').toNat = 90 := rfl
    have e5 : ('0').toNat = 48 := rfl
    have e6 : ('9').toNat = 57 := rfl
    simp only [alnum, Bool.or_eq_true, Bool.and_eq_true, decide_eq_true_eq, char_le_iff,
      hv, e1, e2, e3, e4, e5, e6]
    omega
  · rw [if_neg hc]
    exact h

/-- A character equality class for a non-alphanumeric character rejects
every alphanumeric character. -/
theorem beq_eq_false_of_alnum {d : Char} (hd : alnum d = false) {c : Char}
    (hc : alnum c = true) : (c == d) = false := by
  cases h : c == d with
  | false => rfl
  | true =>
    obtain rfl : c = d := eq_of_beq h
    rw [hc] at hd
    cases hd

/-- Whitespace is never alphanumeric. -/
theorem wsChar_eq_false_of_alnum {c : Char} (hc : alnum c = true) : wsChar c = false := by
  cases h : wsChar c with
  | false => rfl
  | true =>
    exfalso
    simp only [wsChar, Bool.or_eq_true, decide_eq_true_eq] at h
    rcases h with ((((h | h) | h) | h) | h) | h <;> subst h <;> exact absurd hc (by decide)

/-! ## No-match lemmas for the strict patterns -/

/-- Each of the nine strict patterns except `SELECT.*FROM` contains a
mandatory character (`<`, `:`, `=` or whitespace) that no alphanumeric
string provides, and `SELECT.*FROM` is excluded by hypothesis: such a
string defeats the whole strict catalogue. -/
theorem strict_no_match {s : String} (ha : s.data.all alnum = true)
    (hsf : reContainsCI pSelectFrom s = false) :
    ∀ p ∈ strictPatterns, reContainsCI p s = false := by
  have hlower : ∀ c ∈ s.data.map Char.toLower, alnum c = true := by
    intro c hc
    obtain ⟨d, hd, rfl⟩ := List.mem_map.mp hc
    exact alnum_toLower (List.all_eq_true.mp ha d hd)
  have hlt : ∀ c ∈ s.data.map Char.toLower, (c == '<') = false :=
    fun c hc => beq_eq_false_of_alnum (by decide) (hlower c hc)
  have hcolon : ∀ c ∈ s.data.map Char.toLower, (c == ':') = false :=
    fun c hc => beq_eq_false_of_alnum (by decide) (hlower c hc)
  have heq : ∀ c ∈ s.data.map Char.toLower, (c == '=') = false :=
    fun c hc => beq_eq_false_of_alnum (by decide) (hlower c hc)
  have hws : ∀ c ∈ s.data.map Char.toLower, wsChar c = false :=
    fun c hc => wsChar_eq_false_of_alnum (hlower c hc)
  intro p hp
  simp only [strictPatterns, List.mem_cons, List.not_mem_nil, or_false] at hp
  rcases hp with rfl | rfl | rfl | rfl | rfl | rfl | rfl | rfl | rfl
  · exact reContainsCI_eq_false
      (by repeat first | exact List.Mem.head _ | apply List.Mem.tail) hlt
  · exact reContainsCI_eq_false
      (by repeat first | exact List.Mem.head _ | apply List.Mem.tail) hcolon
  · exact reContainsCI_eq_false
      (by repeat first | exact List.Mem.head _ | apply List.Mem.tail) hcolon
  · exact reContainsCI_eq_false
      (by repeat first | exact List.Mem.head _ | apply List.Mem.tail) heq
  · exact hsf
  · exact reContainsCI_eq_false
      (by repeat first | exact List.Mem.head _ | apply List.Mem.tail) hws
  · exact reContainsCI_eq_false
      (by repeat first | exact List.Mem.head _ | apply List.Mem.tail) hws
  · exact reContainsCI_eq_false
      (by repeat first | exact List.Mem.head _ | apply List.Mem.tail) hws
  · exact reContainsCI_eq_false
      (by repeat first | exact List.Mem.head _ | apply List.Mem.tail) hws

/-! ## Coercion-loop lemmas -/

theorem except_bind_error {ε α β : Type} (e : ε) (f : α → Except ε β) :
    (Except.error e >>= f) = Except.error e := rfl

theorem except_bind_ok {ε α β : Type} (a : α) (f : α → Except ε β) :
    (Except.ok a >>= f) = f a := rfl

theorem strsOf_ok_mem {cells : List Cell} {strs : List String}
    (h : strsOf cells = Except.ok strs) {s : String}
    (hs : Cell.str s ∈ cells) : s ∈ strs := by
  induction cells generalizing strs with
  | nil => cases hs
  | cons c cs ih =>
    rw [strsOf] at h
    cases hc : cellToStr c with
    | error e => rw [hc, except_bind_error] at h; exact Except.noConfusion h
    | ok s0 =>
      rw [hc, except_bind_ok] at h
      cases hcs : strsOf cs with
      | error e => rw [hcs, except_bind_error] at h; exact Except.noConfusion h
      | ok ss =>
        rw [hcs, except_bind_ok] at h
        injection h with h
        subst h
        rcases List.mem_cons.mp hs with rfl | hmem
        · have : s0 = s := by
            rw [cellToStr] at hc
            injection hc with h'
            exact h'.symm
          exact this ▸ List.mem_cons_self s0 ss
        · exact List.mem_cons_of_mem s0 (ih hcs hmem)

theorem colStrs_ok_mem {cells : List Cell} {strs : List String}
    (h : colStrs cells = Except.ok strs) {s : String}
    (hs : Cell.str s ∈ cells) : s ∈ strs :=
  strsOf_ok_mem h (List.mem_filter.mpr ⟨hs, by simp⟩)

theorem strsOf_ok_of_all {Q : String → Prop} {cells : List Cell}
    (h : ∀ c ∈ cells, ∃ s, c = Cell.str s ∧ Q s) :
    ∃ strs, strsOf cells = Except.ok strs ∧ ∀ s ∈ strs, Q s := by
  induction cells with
  | nil => exact ⟨[], rfl, by intro s hs; cases hs⟩
  | cons c cs ih =>
    obtain ⟨s, rfl, hQ⟩ := h c (List.mem_cons_self c cs)
    obtain ⟨strs, hok, hall⟩ := ih (fun c' hc' => h c' (List.mem_cons_of_mem _ hc'))
    refine ⟨s :: strs, ?_, ?_⟩
    · rw [strsOf, show cellToStr (Cell.str s) = Except.ok s from rfl, except_bind_ok,
        hok, except_bind_ok]
    · intro s' hs'
      rcases List.mem_cons.mp hs' with rfl | hmem
      · exact hQ
      · exact hall s' hmem

theorem colStrs_ok_of_cells {Q : String → Prop} {cells : List Cell}
    (h : ∀ c ∈ cells, c = Cell.null ∨ ∃ s, c = Cell.str s ∧ Q s) :
    ∃ strs, colStrs cells = Except.ok strs ∧ ∀ s ∈ strs, Q s := by
  apply strsOf_ok_of_all
  intro c hc
  have hmem := (List.mem_filter.mp hc).1
  have hne : c ≠ Cell.null := by
    have := (List.mem_filter.mp hc).2
    simpa using this
  rcases h c hmem with rfl | hok
  · exact absurd rfl hne
  · exact hok

/-! ## Scan-loop lemmas -/

theorem scanPatternLoop_ok_none {cols : List Column}
    (h : scanPatternLoop cols = Except.ok none) :
    ∀ col ∈ cols, ∃ strs, colStrs col.cells = Except.ok strs ∧
      strictPatterns.any (fun p => strs.any (fun s => reContainsCI p s)) = false := by
  induction cols with
  | nil => intro col hc; cases hc
  | cons c cs ih =>
    rw [scanPatternLoop] at h
    cases hc : colStrs c.cells with
    | error e => rw [hc, except_bind_error] at h; exact Except.noConfusion h
    | ok strs =>
      rw [hc, except_bind_ok] at h
      by_cases hany :
          strictPatterns.any (fun p => strs.any (fun s => reContainsCI p s)) = true
      · rw [if_pos hany] at h
        injection h with h
        exact Option.noConfusion h
      · rw [if_neg hany] at h
        intro col hcol
        rcases List.mem_cons.mp hcol with rfl | hmem
        · exact ⟨strs, hc, Bool.not_eq_true _ ▸ Bool.of_not_eq_true hany⟩
        · exact ih h col hmem

theorem scanPatternLoop_none_of_safe {cols : List Column}
    (h : ∀ col ∈ cols, ∃ strs, colStrs col.cells = Except.ok strs ∧
      strictPatterns.any (fun p => strs.any (fun s => reContainsCI p s)) = false) :
    scanPatternLoop cols = Except.ok none := by
  induction cols with
  | nil => rfl
  | cons c cs ih =>
    obtain ⟨strs, hok, hany⟩ := h c (List.mem_cons_self c cs)
    rw [scanPatternLoop, hok, except_bind_ok, if_neg (by rw [hany]; exact Bool.false_ne_true)]
    exact ih (fun col hcol => h col (List.mem_cons_of_mem c hcol))

theorem listMaxN_le {l : List Nat} {k : Nat} (h : ∀ x ∈ l, x ≤ k) :
    ∀ m, listMaxN l = some m → m ≤ k := by
  induction l with
  | nil => intro m hm; cases hm
  | cons x xs ih =>
    intro m hm
    rw [listMaxN] at hm
    cases hxs : listMaxN xs with
    | none =>
      rw [hxs] at hm
      injection hm with hm
      exact hm ▸ h x (List.mem_cons_self x xs)
    | some m' =>
      rw [hxs] at hm
      injection hm with hm
      subst hm
      exact max_le (h x (List.mem_cons_self x xs))
        (ih (fun y hy => h y (List.mem_cons_of_mem x hy)) m' hxs)

theorem scanSizeLoop_none_of_small {cols : List Column}
    (h : ∀ col ∈ cols, col.dtype = Dtype.object →
      ∃ strs, colStrs col.cells = Except.ok strs ∧
        ∀ s ∈ strs, s.length ≤ max_cell_size) :
    scanSizeLoop cols = Except.ok none := by
  induction cols with
  | nil => rfl
  | cons c cs ih =>
    rw [scanSizeLoop]
    by_cases hdt : c.dtype = Dtype.object
    · rw [if_pos hdt]
      obtain ⟨strs, hok, hlen⟩ := h c (List.mem_cons_self c cs) hdt
      rw [hok, except_bind_ok]
      have hrest := ih (fun col hcol => h col (List.mem_cons_of_mem c hcol))
      cases hmax : listMaxN (strs.map String.length) with
      | none => exact hrest
      | some m =>
        have hm : m ≤ max_cell_size := by
          apply listMaxN_le _ m hmax
          intro x hx
          obtain ⟨s, hs, rfl⟩ := List.mem_map.mp hx
          exact hlen s hs
        show (if m > max_cell_size then Except.ok (some c.name)
          else scanSizeLoop cs) = Except.ok none
        rw [if_neg (Nat.not_lt.mpr hm)]
        exact hrest
    · rw [if_neg hdt]
      exact ih (fun col hcol => h col (List.mem_cons_of_mem c hcol))

/-! ## Claim C1 -/

/-- A benign cell for the amended C1: null, or an alphanumeric string
within the cell-size limit that contains no `select`…`from` keyword
sequence. -/
def benignCell (c : Cell) : Bool :=
  match c with
  | Cell.null => true
  | Cell.str s =>
      s.data.all alnum && decide (s.length ≤ max_cell_size)
        && !(reContainsCI pSelectFrom s)
  | _ => false

/-- A one-column table whose only cell matches the catalogue's
command-injection signature `;\s*rm\s+-rf`. -/
def dfCmdInj : DataFrame :=
  ⟨1, [⟨("cmd"), Dtype.object, [Cell.str ("; rm -rf /")]⟩]⟩

/-- A one-column table whose only cell is the purely alphanumeric,
PII-free string `selectfrom`. -/
def dfSelInj : DataFrame :=
  ⟨1, [⟨("txt"), Dtype.object, [Cell.str ("selectfrom")]⟩]⟩

/-- C1 (counterexample): the claim fails in both directions.  The cell
`"; rm -rf /"` matches the command-injection signature of the
catalogue, yet the strict upload-time scan reports it safe — the scan
only tests its own nine script/SQL patterns.  Conversely the cell
`"selectfrom"` is purely alphanumeric and matches no PII shape, yet the
strict scan reports the table unsafe, because `SELECT.*FROM` matches
inside it. -/
theorem c1_counterexample :
    (reContainsCI pRmRf ("; rm -rf /") = true
      ∧ (security_scan dfCmdInj).safe = true)
    ∧ ((("selectfrom")).data.all alnum = true
      ∧ (piiPatterns.map (fun pr => pr.2)).any
          (fun p => reContains p (("selectfrom"))) = false
      ∧ (security_scan dfSelInj).safe = false) := by
  exact ⟨⟨by decide, by decide⟩, by decide, by decide, by decide⟩

/-- C1 (amended): the strict upload-time scan returns `safe = false`
whenever any non-null string cell of an object column matches one of
the scan's own nine script/SQL injection patterns; and it returns
`safe = true` for a table whose object-column cells are all benign:
alphanumeric, at most 10000 characters, with no `select`…`from`
keyword sequence (the one strict pattern an alphanumeric string can
still match).  PII shapes are not consulted by the strict scan. -/
theorem c1_strict_scan :
    (∀ (df : DataFrame) (col : Column) (s : String) (p : RPat),
      col ∈ df.cols → col.dtype = Dtype.object → Cell.str s ∈ col.cells →
      p ∈ strictPatterns → reContainsCI p s = true →
      (security_scan df).safe = false)
    ∧ (∀ df : DataFrame,
      (∀ col ∈ df.cols, col.dtype = Dtype.object →
        col.cells.all benignCell = true) →
      (security_scan df).safe = true) := by
  constructor
  · intro df col s p hcol hdt hcell hp hmatch
    cases hpl : scanPatternLoop (objectCols df) with
    | error e =>
      have hb : security_scan_body df = Except.error e := by
        unfold security_scan_body
        rw [hpl]
      unfold security_scan
      rw [hb]
    | ok o =>
      cases o with
      | some cname =>
        have hb : security_scan_body df =
            Except.ok ⟨false, SMessage.suspiciousContent cname⟩ := by
          unfold security_scan_body
          rw [hpl]
        unfold security_scan
        rw [hb]
      | none =>
        exfalso
        have hobj : col ∈ objectCols df :=
          List.mem_filter.mpr ⟨hcol, by simp [hdt]⟩
        obtain ⟨strs, hok, hany⟩ := scanPatternLoop_ok_none hpl col hobj
        have hsmem := colStrs_ok_mem hok hcell
        have : strictPatterns.any
            (fun p => strs.any (fun s => reContainsCI p s)) = true :=
          List.any_eq_true.mpr ⟨p, hp, List.any_eq_true.mpr ⟨s, hsmem, hmatch⟩⟩
        rw [hany] at this
        exact Bool.false_ne_true this
  · intro df h
    have hcells : ∀ col ∈ df.cols, col.dtype = Dtype.object →
        ∀ c ∈ col.cells, c = Cell.null ∨ ∃ s, c = Cell.str s ∧
          (s.data.all alnum = true ∧ s.length ≤ max_cell_size ∧
            reContainsCI pSelectFrom s = false) := by
      intro col hcol hdt c hc
      have hb := List.all_eq_true.mp (h col hcol hdt) c hc
      cases c with
      | null => exact Or.inl rfl
      | str s =>
        simp only [benignCell, Bool.and_eq_true, Bool.not_eq_true',
          decide_eq_true_eq] at hb
        exact Or.inr ⟨s, rfl, hb.1.1, hb.1.2, hb.2⟩
      | num q => simp [benignCell] at hb
      | bad m => simp [benignCell] at hb
    have h1 : scanPatternLoop (objectCols df) = Except.ok none := by
      apply scanPatternLoop_none_of_safe
      intro col hcol
      have hdt : col.dtype = Dtype.object := by
        have := (List.mem_filter.mp hcol).2
        simpa using this
      obtain ⟨strs, hok, hQ⟩ :=
        colStrs_ok_of_cells (hcells col (List.mem_filter.mp hcol).1 hdt)
      refine ⟨strs, hok, ?_⟩
      apply List.any_eq_false.mpr
      intro p hp
      rw [Bool.not_eq_true]
      apply List.any_eq_false.mpr
      intro s hs
      rw [Bool.not_eq_true]
      obtain ⟨ha, _, hsf⟩ := hQ s hs
      exact strict_no_match ha hsf p hp
    have h2 : scanSizeLoop df.cols = Except.ok none := by
      apply scanSizeLoop_none_of_small
      intro col hcol hdt
      obtain ⟨strs, hok, hQ⟩ := colStrs_ok_of_cells (hcells col hcol hdt)
      exact ⟨strs, hok, fun s hs => (hQ s hs).2.1⟩
    have hb : security_scan_body df = Except.ok ⟨true, SMessage.scanPassed⟩ := by
      have e1 : security_scan_body df =
          (match scanSizeLoop df.cols with
           | Except.error e => Except.error e
           | Except.ok (some col) => Except.ok ⟨false, SMessage.cellTooLarge col⟩
           | Except.ok none => Except.ok ⟨true, SMessage.scanPassed⟩) := by
        unfold security_scan_body
        rw [h1]
      rw [e1, h2]
    unfold security_scan
    rw [hb]

/-- C1 (witness for the amended theorem): a table containing a script
tag is rejected, and a fully benign table is accepted. -/
theorem c1_strict_scan_witness :
    (security_scan ⟨2, [⟨("comment"), Dtype.object,
        [Cell.str ("Normal comment"), Cell.str ("<script>alert(1)</script>")]⟩]⟩).safe = false
    ∧ (security_scan ⟨2, [⟨("name"), Dtype.object,
        [Cell.str ("John"), Cell.str ("Jane")]⟩]⟩).safe = true := by
  constructor
  · exact c1_strict_scan.1
      ⟨2, [⟨("comment"), Dtype.object,
        [Cell.str ("Normal comment"), Cell.str ("<script>alert(1)</script>")]⟩]⟩
      ⟨("comment"), Dtype.object,
        [Cell.str ("Normal comment"), Cell.str ("<script>alert(1)</script>")]⟩
      ("<script>alert(1)</script>") pScriptTag
      (by decide) (by decide) (by decide) (List.Mem.head _) (by decide)
  · exact c1_strict_scan.2
      ⟨2, [⟨("name"), Dtype.object, [Cell.str ("John"), Cell.str ("Jane")]⟩]⟩
      (by decide)

/-! ## Claims C3 and C5 (file validator) -/

/-- A filename containing `..`, `/` or `\` never passes
`_is_safe_filename`. -/
theorem is_safe_filename_false {name : String}
    (h : strContainsSub name (("..")) = true ∨ strContainsSub name (("/")) = true
      ∨ strContainsSub name (("\\")) = true) :
    is_safe_filename name = false := by
  unfold is_safe_filename
  rcases h with h | h | h
  · rw [h]
    rfl
  · rw [h]
    simp
  · rw [h]
    simp

/-- C3: for every upload metadata whose filename contains `..`, `/` or a
backslash, `_validate_file` returns an invalid verdict, whatever the
extension and size: either an earlier check already failed, or the
filename check fails. -/
theorem c3_traversal_rejected (f : UploadMeta)
    (h : strContainsSub f.name (("..")) = true ∨ strContainsSub f.name (("/")) = true
      ∨ strContainsSub f.name (("\\")) = true) :
    (validate_file f).valid = false := by
  have hsf : is_safe_filename f.name = false := is_safe_filename_false h
  unfold validate_file
  by_cases h1 : f.size > MAX_FILE_SIZE
  · rw [if_pos h1]
  · rw [if_neg h1]
    by_cases h2 : fileExtension f.name ∉ ALLOWED_EXTENSIONS
    · rw [if_pos h2]
    · rw [if_neg h2]
      by_cases h3 : f.type ∉ ALLOWED_MIME_TYPES
      · rw [if_pos h3]
      · rw [if_neg h3]
        rw [if_pos (show ¬ (is_safe_filename f.name = true) by
          rw [hsf]; exact Bool.false_ne_true)]

/-- C3 (witness): `../evil.xlsx` is rejected even with a valid
extension, MIME type and size. -/
theorem c3_traversal_rejected_witness :
    (validate_file ⟨100, ("../evil.xlsx"),
      ("application/vnd.openxmlformats-officedocument.spreadsheetml.sheet")⟩).valid = false :=
  c3_traversal_rejected _ (by decide)

/-- C5: a file strictly above `MAX_FILE_SIZE` is rejected with the
size message; a file of exactly `MAX_FILE_SIZE` passes the size check
(the bound is inclusive), so with a valid extension, MIME type and safe
filename it is accepted. -/
theorem c5_size_boundary :
    (∀ f : UploadMeta, f.size > MAX_FILE_SIZE →
      validate_file f = ⟨false, VMessage.sizeExceeds⟩)
    ∧ (∀ f : UploadMeta, f.size = MAX_FILE_SIZE →
      fileExtension f.name ∈ ALLOWED_EXTENSIONS →
      f.type ∈ ALLOWED_MIME_TYPES →
      is_safe_filename f.name = true →
      (validate_file f).valid = true) := by
  constructor
  · intro f h
    unfold validate_file
    rw [if_pos h]
  · intro f hsize hext hmime hsafe
    unfold validate_file
    rw [if_neg (by rw [hsize]; exact lt_irrefl _),
      if_neg (not_not_intro hext),
      if_neg (not_not_intro hmime),
      if_neg (not_not_intro hsafe),
      if_neg (by rw [hsize]; decide)]

/-- C5 (witness): size `MAX_FILE_SIZE + 1` is rejected with the size
message; size exactly `MAX_FILE_SIZE` with valid metadata is accepted. -/
theorem c5_size_boundary_witness :
    validate_file ⟨MAX_FILE_SIZE + 1, ("data.xlsx"),
        ("application/vnd.openxmlformats-officedocument.spreadsheetml.sheet")⟩
      = ⟨false, VMessage.sizeExceeds⟩
    ∧ (validate_file ⟨MAX_FILE_SIZE, ("data.xlsx"),
        ("application/vnd.openxmlformats-officedocument.spreadsheetml.sheet")⟩).valid = true := by
  constructor
  · exact c5_size_boundary.1 _ (by decide)
  · exact c5_size_boundary.2 _ rfl (by decide) (by decide) (by decide)

/-! ## Claim C4 (fail-closed scanning) -/

/-- C4: an internal exception in the scan body is caught and converted
into a fail-closed verdict: the strict upload-time scan returns
`safe = false` (never propagating the error), and the per-column threat
scanner of the in-session path reports the column as a threat.  Both
wrappers are total functions, so no exception ever reaches the caller. -/
theorem c4_fail_closed :
    (∀ (df : DataFrame) (e : String), security_scan_body df = Except.error e →
      security_scan df = ⟨false, SMessage.scanFailed e⟩)
    ∧ (∀ (cells : List Cell) (e : String),
      scan_column_for_threats_body cells = Except.error e →
      scan_column_for_threats cells = true) := by
  constructor
  · intro df e h
    unfold security_scan
    rw [h]
  · intro cells e h
    unfold scan_column_for_threats
    rw [h]

/-- C4 (witness): a cell whose string coercion raises makes the scan
body fail, and both scanners fail closed on it. -/
theorem c4_fail_closed_witness :
    security_scan_body ⟨1, [⟨("colA"), Dtype.object, [Cell.bad ("boom")]⟩]⟩
        = Except.error ("boom")
    ∧ security_scan ⟨1, [⟨("colA"), Dtype.object, [Cell.bad ("boom")]⟩]⟩
        = ⟨false, SMessage.scanFailed ("boom")⟩
    ∧ scan_column_for_threats_body [Cell.bad ("boom")] = Except.error ("boom")
    ∧ scan_column_for_threats [Cell.bad ("boom")] = true :=
  ⟨rfl, c4_fail_closed.1 _ _ rfl, rfl, c4_fail_closed.2 _ _ rfl⟩

/-! ## Claim C10 (permissive in-session scan) -/

theorem colStrs_ok_of_nobad {cells : List Cell}
    (h : ∀ c ∈ cells, ∀ m, c ≠ Cell.bad m) :
    ∃ strs, colStrs cells = Except.ok strs := by
  unfold colStrs
  generalize hl : cells.filter (fun c => c ≠ Cell.null) = l
  have hl' : ∀ c ∈ l, ∀ m, c ≠ Cell.bad m := by
    intro c hc
    exact h c (List.mem_filter.mp (hl ▸ hc)).1
  clear hl h
  induction l with
  | nil => exact ⟨[], rfl⟩
  | cons c cs ih =>
    obtain ⟨strs, hok⟩ := ih (fun c' hc' => hl' c' (List.mem_cons_of_mem c hc'))
    have hne := hl' c (List.mem_cons_self c cs)
    have hcc : ∃ s, cellToStr c = Except.ok s := by
      cases c with
      | null => exact ⟨("nan"), rfl⟩
      | str s => exact ⟨s, rfl⟩
      | num q => exact ⟨toString q.num, rfl⟩
      | bad m => exact absurd rfl (hne m)
    obtain ⟨s, hs⟩ := hcc
    exact ⟨s :: strs, by rw [strsOf, hs, except_bind_ok, hok, except_bind_ok]⟩

theorem vdcSizeWarnings_ok {cols : List Column}
    (h : ∀ col ∈ cols, ∀ c ∈ col.cells, ∀ m, c ≠ Cell.bad m) :
    ∃ ws, vdcSizeWarnings cols = Except.ok ws := by
  induction cols with
  | nil => exact ⟨[], rfl⟩
  | cons col cols ih =>
    obtain ⟨strs, hok⟩ := colStrs_ok_of_nobad (h col (List.mem_cons_self col cols))
    obtain ⟨ws, hws⟩ := ih (fun c hc => h c (List.mem_cons_of_mem col hc))
    rw [vdcSizeWarnings, hok, except_bind_ok, hws, except_bind_ok]
    cases listMaxN (strs.map String.length) with
    | none => exact ⟨ws, rfl⟩
    | some m =>
      by_cases hm : m > limits.MAX_CELL_SIZE_CHARS
      · exact ⟨col.name :: ws, by
          show (if m > limits.MAX_CELL_SIZE_CHARS then Except.ok (col.name :: ws)
            else Except.ok ws) = Except.ok (col.name :: ws)
          rw [if_pos hm]⟩
      · exact ⟨ws, by
          show (if m > limits.MAX_CELL_SIZE_CHARS then Except.ok (col.name :: ws)
            else Except.ok ws) = Except.ok ws
          rw [if_neg hm]⟩

theorem piiLoop_ok {cols : List Column}
    (h : ∀ col ∈ cols, ∀ c ∈ col.cells, ∀ m, c ≠ Cell.bad m) :
    ∃ ws, piiLoop cols = Except.ok ws := by
  induction cols with
  | nil => exact ⟨[], rfl⟩
  | cons col cols ih =>
    obtain ⟨strs, hok⟩ := colStrs_ok_of_nobad (h col (List.mem_cons_self col cols))
    obtain ⟨ws, hws⟩ := ih (fun c hc => h c (List.mem_cons_of_mem col hc))
    refine ⟨((piiPatterns.filter
      (fun pr => strs.any (fun s => reContains pr.2 s))).map
      (fun pr => (col.name, pr.1))) ++ ws, ?_⟩
    rw [piiLoop, piiColWarnings, hok, except_bind_ok, except_bind_ok, hws, except_bind_ok]

/-- The shape of `validate_data_content` when neither loop raises. -/
theorem validate_data_content_ok {df : DataFrame} {sw : List String}
    {pw : List (String × String)}
    (hsw : vdcSizeWarnings (objectCols df) = Except.ok sw)
    (hpw : check_for_pii df = Except.ok pw) :
    validate_data_content df =
      ⟨!(decide (df.nrows > limits.MAX_ROWS)
          || decide (df.cols.length > limits.MAX_COLUMNS)),
       ((objectCols df).filter (fun col => scan_column_for_threats col.cells)).map
           (fun col => VDCWarning.suspiciousColumn col.name)
         ++ sw.map VDCWarning.largeCells
         ++ pw.map (fun pr => VDCWarning.pii pr.1 pr.2),
       (if decide (df.nrows > limits.MAX_ROWS) = true then [VDCError.tooManyRows] else [])
         ++ (if decide (df.cols.length > limits.MAX_COLUMNS) = true
            then [VDCError.tooManyColumns] else []),
       ((objectCols df).filter (fun col => scan_column_for_threats col.cells)).map
         Column.name⟩ := by
  unfold validate_data_content
  rw [hsw, hpw]

/-- Is this a cell whose string coercion raises? -/
def isBadCell (c : Cell) : Bool :=
  match c with
  | Cell.bad _ => true
  | _ => false

theorem ne_bad_of_not_isBadCell {c : Cell} (h : isBadCell c = false) :
    ∀ m, c ≠ Cell.bad m := by
  intro m
  cases c <;> simp [isBadCell] at h ⊢

/-- C10: within the row/column limits and absent internal exceptions
(no un-coercible cell), the permissive in-session scan always reports
`safe = true`: pattern and PII matches only append warnings and record
the column in `suspicious_columns`. -/
theorem c10_permissive_safe (df : DataFrame)
    (hrows : df.nrows ≤ limits.MAX_ROWS)
    (hcols : df.cols.length ≤ limits.MAX_COLUMNS)
    (hnb : ∀ col ∈ df.cols, ∀ c ∈ col.cells, isBadCell c = false) :
    (validate_data_content df).safe = true
    ∧ (validate_data_content df).suspicious_columns =
      ((objectCols df).filter (fun col => scan_column_for_threats col.cells)).map
        Column.name := by
  have hnobadO : ∀ col ∈ objectCols df, ∀ c ∈ col.cells, ∀ m, c ≠ Cell.bad m :=
    fun col hcol c hc =>
      ne_bad_of_not_isBadCell (hnb col (List.mem_filter.mp hcol).1 c hc)
  obtain ⟨sw, hsw⟩ := vdcSizeWarnings_ok hnobadO
  obtain ⟨pw, hpw⟩ := piiLoop_ok hnobadO
  rw [validate_data_content_ok hsw hpw]
  refine ⟨?_, rfl⟩
  rw [decide_eq_false (not_lt.mpr hrows), decide_eq_false (not_lt.mpr hcols)]
  rfl

/-- C10 (witness): the suspicious-data table of `test-security.py`:
a script-tag cell yields `safe = true` with the column flagged. -/
theorem c10_permissive_safe_witness :
    (validate_data_content ⟨2, [⟨("name"), Dtype.object,
        [Cell.str ("John"), Cell.str ("Jane")]⟩,
      ⟨("comment"), Dtype.object,
        [Cell.str ("Normal comment"), Cell.str ("<script>alert(1)</script>")]⟩]⟩).safe = true
    ∧ (validate_data_content ⟨2, [⟨("name"), Dtype.object,
        [Cell.str ("John"), Cell.str ("Jane")]⟩,
      ⟨("comment"), Dtype.object,
        [Cell.str ("Normal comment"), Cell.str ("<script>alert(1)</script>")]⟩]⟩).suspicious_columns
      = [("comment")] := by
  have h := c10_permissive_safe ⟨2, [⟨("name"), Dtype.object,
        [Cell.str ("John"), Cell.str ("Jane")]⟩,
      ⟨("comment"), Dtype.object,
        [Cell.str ("Normal comment"), Cell.str ("<script>alert(1)</script>")]⟩]⟩
    (by decide) (by decide) (by decide)
  exact ⟨h.1, by rw [h.2]; decide⟩

/-! ## Claim C6 (missing-data percentage) -/

/-- C6 (counterexample): for the empty table the denominator
`len(df) * len(df.columns)` is zero and numpy division yields NaN
(modelled as `none`): no percentage in `[0, 100]` is produced even
though the table has no nulls. -/
theorem c6_counterexample :
    (generate_quality_report ⟨0, []⟩).missing_data_percentage = none
    ∧ totalNulls ⟨0, []⟩ = 0 := by
  constructor
  · simp [generate_quality_report]
  · rfl

theorem colNullCount_le {cells : List Cell} : colNullCount cells ≤ cells.length :=
  List.length_filter_le _ _

/-- C6 (amended): for every well-formed table with at least one row and
at least one column, the missing-data percentage is an actual number in
`[0, 100]`, and it is `0` exactly when the table has no null cell. -/
theorem c6_missing_percentage (df : DataFrame) (hwf : df.wf)
    (hr : 0 < df.nrows) (hc : df.cols ≠ []) :
    ∃ q, (generate_quality_report df).missing_data_percentage = some q ∧
      0 ≤ q ∧ q ≤ 100 ∧
      (q = 0 ↔ ∀ col ∈ df.cols, ∀ c ∈ col.cells, c ≠ Cell.null) := by
  have hcpos : 0 < df.cols.length := List.length_pos.mpr hc
  have hdenom : ((df.nrows : ℚ) * (df.cols.length : ℚ)) ≠ 0 := by
    have h1 : (0 : ℚ) < (df.nrows : ℚ) := by exact_mod_cast hr
    have h2 : (0 : ℚ) < (df.cols.length : ℚ) := by exact_mod_cast hcpos
    positivity
  have hN : totalNulls df ≤ df.nrows * df.cols.length := by
    unfold totalNulls
    calc (df.cols.map (fun c => colNullCount c.cells)).sum
        ≤ (df.cols.map (fun _ => df.nrows)).sum := by
          apply List.sum_le_sum
          intro c hcmem
          calc colNullCount c.cells ≤ c.cells.length := colNullCount_le
            _ = df.nrows := hwf c hcmem
      _ = df.nrows * df.cols.length := by
          rw [List.map_const', List.sum_replicate, smul_eq_mul, Nat.mul_comm]
  refine ⟨((totalNulls df : ℚ) / ((df.nrows : ℚ) * (df.cols.length : ℚ))) * 100, ?_, ?_, ?_, ?_⟩
  · simp only [generate_quality_report]
    rw [if_neg hdenom]
  · positivity
  · have hcast : (totalNulls df : ℚ) ≤ (df.nrows : ℚ) * (df.cols.length : ℚ) := by
      rw [← Nat.cast_mul]
      exact_mod_cast hN
    have hdpos : (0 : ℚ) < (df.nrows : ℚ) * (df.cols.length : ℚ) :=
      lt_of_le_of_ne (by positivity) (Ne.symm hdenom)
    calc ((totalNulls df : ℚ) / ((df.nrows : ℚ) * (df.cols.length : ℚ))) * 100
        ≤ 1 * 100 := by
          apply mul_le_mul_of_nonneg_right _ (by norm_num)
          rw [div_le_one hdpos]
          exact hcast
      _ = 100 := by norm_num
  · have hzero : ((totalNulls df : ℚ) / ((df.nrows : ℚ) * (df.cols.length : ℚ))) * 100 = 0
        ↔ totalNulls df = 0 := by
      rw [mul_eq_zero, div_eq_zero_iff]
      constructor
      · intro h
        rcases h with (h | h) | h
        · exact_mod_cast h
        · exact absurd h hdenom
        · norm_num at h
      · intro h
        exact Or.inl (Or.inl (by exact_mod_cast h))
    rw [hzero]
    unfold totalNulls
    rw [List.sum_eq_zero_iff]
    constructor
    · intro h col hcol c hcmem
      have h0 : colNullCount col.cells = 0 :=
        h _ (List.mem_map.mpr ⟨col, hcol, rfl⟩)
      intro hnull
      subst hnull
      unfold colNullCount at h0
      rw [List.length_eq_zero] at h0
      have : Cell.null ∈ col.cells.filter (fun c => c = Cell.null) :=
        List.mem_filter.mpr ⟨hcmem, by simp⟩
      rw [h0] at this
      cases this
    · intro h x hx
      obtain ⟨col, hcol, rfl⟩ := List.mem_map.mp hx
      unfold colNullCount
      rw [List.length_eq_zero, List.filter_eq_nil_iff]
      intro c hcmem
      simp only [decide_eq_true_eq]
      exact h col hcol c hcmem

/-- C6 (witness): a 2×2 table with one null cell has missing
percentage 25; the hypotheses hold and the conclusion follows. -/
theorem c6_missing_percentage_witness :
    ∃ q, (generate_quality_report ⟨2, [⟨("a"), Dtype.object,
        [Cell.str ("x"), Cell.null]⟩,
      ⟨("b"), Dtype.numeric, [Cell.num 1, Cell.num 2]⟩]⟩).missing_data_percentage = some q ∧
      0 ≤ q ∧ q ≤ 100 ∧
      (q = 0 ↔ ∀ col ∈ ([⟨("a"), Dtype.object, [Cell.str ("x"), Cell.null]⟩,
        ⟨("b"), Dtype.numeric, [Cell.num 1, Cell.num 2]⟩] : List Column),
        ∀ c ∈ col.cells, c ≠ Cell.null) :=
  c6_missing_percentage _ (by decide) (by decide) (by decide)

/-! ## Claim C7 (no-variance columns have no outliers) -/

theorem mem_insertSorted {x y : ℚ} {l : List ℚ} :
    y ∈ insertSorted x l ↔ y = x ∨ y ∈ l := by
  induction l with
  | nil => simp [insertSorted]
  | cons a l ih =>
    rw [insertSorted]
    by_cases h : x ≤ a
    · rw [if_pos h]
      simp [List.mem_cons]
    · rw [if_neg h]
      simp only [List.mem_cons, ih]
      tauto

theorem mem_sortQ {x : ℚ} {l : List ℚ} : x ∈ sortQ l ↔ x ∈ l := by
  induction l with
  | nil => simp [sortQ]
  | cons a l ih =>
    rw [sortQ, mem_insertSorted, ih, List.mem_cons]

theorem length_insertSorted (x : ℚ) (l : List ℚ) :
    (insertSorted x l).length = l.length + 1 := by
  induction l with
  | nil => rfl
  | cons a l ih =>
    rw [insertSorted]
    by_cases h : x ≤ a
    · rw [if_pos h]
      rfl
    · rw [if_neg h]
      simp [List.length_cons, ih]

theorem length_sortQ (l : List ℚ) : (sortQ l).length = l.length := by
  induction l with
  | nil => rfl
  | cons a l ih =>
    rw [sortQ, length_insertSorted, ih]
    rfl

theorem getD_of_all {l : List ℚ} {c : ℚ} (h : ∀ x ∈ l, x = c) {i : Nat}
    (hi : i < l.length) : l.getD i 0 = c := by
  induction l generalizing i with
  | nil => cases hi
  | cons a l ih =>
    cases i with
    | zero => exact h a (List.mem_cons_self a l)
    | succ j =>
      exact ih (fun x hx => h x (List.mem_cons_of_mem a hx))
        (Nat.lt_of_succ_lt_succ hi)

/-- Any quantile of a constant non-empty sample is the constant. -/
theorem quantile_const {vals : List ℚ} {c : ℚ} (hne : vals ≠ [])
    (hall : ∀ v ∈ vals, v = c) {q : ℚ} (h0 : 0 ≤ q) (h1 : q ≤ 1) :
    quantile q vals = some c := by
  have hlen : (sortQ vals).length = vals.length := length_sortQ vals
  have hpos : 0 < vals.length := List.length_pos.mpr hne
  have hallS : ∀ x ∈ sortQ vals, x = c := fun x hx => hall x (mem_sortQ.mp hx)
  unfold quantile
  cases hs : sortQ vals with
  | nil =>
    rw [hs] at hlen
    simp only [List.length_nil] at hlen
    omega
  | cons a l =>
    have hallS' : ∀ x ∈ a :: l, x = c := fun x hx => hallS x (hs ▸ hx)
    have hn1 : 1 ≤ (a :: l).length := by simp
    show some ((a :: l).getD (⌊(((a :: l).length : ℚ) - 1) * q⌋).toNat 0
        + ((((a :: l).length : ℚ) - 1) * q - (⌊(((a :: l).length : ℚ) - 1) * q⌋ : ℚ))
          * ((a :: l).getD (⌈(((a :: l).length : ℚ) - 1) * q⌉).toNat 0
            - (a :: l).getD (⌊(((a :: l).length : ℚ) - 1) * q⌋).toNat 0))
      = some c
    set n : ℕ := (a :: l).length with hn
    set pos : ℚ := ((n : ℚ) - 1) * q with hposdef
    have hnq : (1 : ℚ) ≤ (n : ℚ) := by exact_mod_cast hn1
    have hpos0 : 0 ≤ pos := mul_nonneg (by linarith) h0
    have hposle : pos ≤ (n : ℚ) - 1 := by
      calc pos ≤ ((n : ℚ) - 1) * 1 := mul_le_mul_of_nonneg_left h1 (by linarith)
        _ = (n : ℚ) - 1 := by ring
    have hcast : (((n : Int) - 1 : Int) : ℚ) = (n : ℚ) - 1 := by push_cast; ring
    have hfloor_lt : (⌊pos⌋).toNat < n := by
      have hf2 : ⌊pos⌋ ≤ (n : Int) - 1 := by
        calc ⌊pos⌋ ≤ ⌊(((n : Int) - 1 : Int) : ℚ)⌋ :=
              Int.floor_le_floor (by rw [hcast]; exact hposle)
          _ = (n : Int) - 1 := Int.floor_intCast _
      omega
    have hceil_lt : (⌈pos⌉).toNat < n := by
      have hf2 : ⌈pos⌉ ≤ (n : Int) - 1 := by
        calc ⌈pos⌉ ≤ ⌈(((n : Int) - 1 : Int) : ℚ)⌉ :=
              Int.ceil_le_ceil (by rw [hcast]; exact hposle)
          _ = (n : Int) - 1 := Int.ceil_intCast _
      omega
    rw [getD_of_all hallS' hfloor_lt, getD_of_all hallS' hceil_lt]
    congr 1
    ring

/-- C7: a numeric column whose values are all equal has IQR-rule
outlier count 0: in the shared outlier computation, in its column
profile, and in the quality report of a table made of that column. -/
theorem c7_constant_no_outliers (col : Column) (nrows : Nat)
    (hnum : col.dtype = Dtype.numeric)
    (hconst : ∀ v ∈ numValues col.cells, ∀ w ∈ numValues col.cells, v = w) :
    colOutlierCount col.cells = 0
    ∧ (profileColumn nrows col).outlier_count = some 0
    ∧ (generate_quality_report ⟨nrows, [col]⟩).potential_outliers = 0 := by
  have hmain : colOutlierCount col.cells = 0 := by
    cases hv : numValues col.cells with
    | nil =>
      simp only [colOutlierCount]
      rw [hv]
      rfl
    | cons a vs =>
      have hne : numValues col.cells ≠ [] := by rw [hv]; exact List.cons_ne_nil a vs
      have hall : ∀ v ∈ numValues col.cells, v = a := by
        intro v hv'
        exact hconst v hv' a (by rw [hv]; exact List.mem_cons_self a vs)
      have hq1 : quantile (1/4) (numValues col.cells) = some a :=
        quantile_const hne hall (by norm_num) (by norm_num)
      have hq3 : quantile (3/4) (numValues col.cells) = some a :=
        quantile_const hne hall (by norm_num) (by norm_num)
      have hfilter : (numValues col.cells).filter
          (fun v => v < a - 3/2 * (a - a) || a + 3/2 * (a - a) < v) = [] := by
        rw [List.filter_eq_nil_iff]
        intro v hv'
        rw [hall v hv']
        simp only [Bool.or_eq_true, decide_eq_true_eq, not_or]
        constructor <;> intro h <;> nlinarith [h]
      simp only [colOutlierCount]
      rw [hq1, hq3]
      show ((numValues col.cells).filter
        (fun v => v < a - 3/2 * (a - a) || a + 3/2 * (a - a) < v)).length = 0
      rw [hfilter]
      rfl
  refine ⟨hmain, ?_, ?_⟩
  · unfold profileColumn
    rw [if_pos hnum, hmain]
  · simp only [generate_quality_report]
    show ((numericCols ⟨nrows, [col]⟩).map (fun c => colOutlierCount c.cells)).sum = 0
    unfold numericCols
    simp only [List.filter_cons, List.filter_nil]
    rw [if_pos (by simp [hnum])]
    simp [hmain]

/-- C7 (witness): a constant column of three 5s. -/
theorem c7_constant_no_outliers_witness :
    colOutlierCount [Cell.num 5, Cell.num 5, Cell.num 5] = 0
    ∧ (profileColumn 3 ⟨("age"), Dtype.numeric,
        [Cell.num 5, Cell.num 5, Cell.num 5]⟩).outlier_count = some 0
    ∧ (generate_quality_report ⟨3, [⟨("age"), Dtype.numeric,
        [Cell.num 5, Cell.num 5, Cell.num 5]⟩]⟩).potential_outliers = 0 :=
  c7_constant_no_outliers ⟨("age"), Dtype.numeric,
    [Cell.num 5, Cell.num 5, Cell.num 5]⟩ 3 rfl (by decide)

/-! ## Claim C8 (cleaning never mutates the input) -/

theorem read_alloc {h : PdHeap} {df : DataFrame} {i : Nat}
    (hi : i < h.objs.length) : (h.alloc df).1.read i = h.read i := by
  unfold PdHeap.alloc PdHeap.read
  simp only []
  rw [List.getD_eq_getElem?_getD, List.getD_eq_getElem?_getD,
    List.getElem?_append_left hi]

theorem read_write_ne {h : PdHeap} {df : DataFrame} {i j : Nat}
    (hij : i ≠ j) : (h.write j df).read i = h.read i := by
  unfold PdHeap.write PdHeap.read
  simp only []
  rw [List.getD_eq_getElem?_getD, List.getD_eq_getElem?_getD,
    List.getElem?_set_ne (Ne.symm hij)]

theorem alloc_length {h : PdHeap} {df : DataFrame} :
    (h.alloc df).1.objs.length = h.objs.length + 1 := by
  unfold PdHeap.alloc
  simp

theorem write_length {h : PdHeap} {df : DataFrame} {j : Nat} :
    (h.write j df).objs.length = h.objs.length := by
  unfold PdHeap.write
  simp

/-- C8: `clean_data` always copies before transforming: for every heap,
every valid reference `r` and every combination of cleaning options,
the returned reference is a new object and the table at `r` is
unchanged — every cell of the original table reads back identically. -/
theorem c8_clean_data_no_mutation (h : PdHeap) (r : Nat) (opts : CleaningOptions)
    (hr : r < h.objs.length) :
    (clean_data h r opts).1.read r = h.read r
    ∧ (clean_data h r opts).2 ≠ r := by
  unfold clean_data
  simp only []
  set h1 := h.alloc (h.read r) with hh1
  have hrc : (h.alloc (h.read r)).2 = h.objs.length := rfl
  have hlen1 : h1.1.objs.length = h.objs.length + 1 := alloc_length
  have hread1 : h1.1.read r = h.read r := read_alloc hr
  by_cases hd : opts.remove_duplicates
  · rw [if_pos hd]
    set h2 := h1.1.alloc (dropDuplicatesDF (h1.1.read h1.2)) with hh2
    have hrc2 : h2.2 = h1.1.objs.length := rfl
    have hlen2 : h2.1.objs.length = h1.1.objs.length + 1 := alloc_length
    have hread2 : h2.1.read r = h.read r := by
      rw [hh2, read_alloc (by omega), hread1]
    have hne2 : h2.2 ≠ r := by omega
    by_cases hn : opts.fill_numeric_missing
    · rw [if_pos hn]
      by_cases hc : opts.fill_categorical_missing
      · rw [if_pos hc]
        exact ⟨by rw [read_write_ne hne2.symm, read_write_ne hne2.symm, hread2], hne2⟩
      · rw [if_neg hc]
        exact ⟨by rw [read_write_ne hne2.symm, hread2], hne2⟩
    · rw [if_neg hn]
      by_cases hc : opts.fill_categorical_missing
      · rw [if_pos hc]
        exact ⟨by rw [read_write_ne hne2.symm, hread2], hne2⟩
      · rw [if_neg hc]
        exact ⟨hread2, hne2⟩
  · rw [if_neg hd]
    have hne1 : h1.2 ≠ r := by
      show h.objs.length ≠ r
      omega
    by_cases hn : opts.fill_numeric_missing
    · rw [if_pos hn]
      by_cases hc : opts.fill_categorical_missing
      · rw [if_pos hc]
        exact ⟨by rw [read_write_ne hne1.symm, read_write_ne hne1.symm, hread1], hne1⟩
      · rw [if_neg hc]
        exact ⟨by rw [read_write_ne hne1.symm, hread1], hne1⟩
    · rw [if_neg hn]
      by_cases hc : opts.fill_categorical_missing
      · rw [if_pos hc]
        exact ⟨by rw [read_write_ne hne1.symm, hread1], hne1⟩
      · rw [if_neg hc]
        exact ⟨hread1, hne1⟩

/-- C8 (witness): a one-object heap with the default options. -/
theorem c8_clean_data_no_mutation_witness :
    (clean_data ⟨[⟨1, [⟨("a"), Dtype.object, [Cell.null]⟩]⟩]⟩ 0
        defaultCleaningOptions).1.read 0
      = PdHeap.read ⟨[⟨1, [⟨("a"), Dtype.object, [Cell.null]⟩]⟩]⟩ 0
    ∧ (clean_data ⟨[⟨1, [⟨("a"), Dtype.object, [Cell.null]⟩]⟩]⟩ 0
        defaultCleaningOptions).2 ≠ 0 :=
  c8_clean_data_no_mutation ⟨[⟨1, [⟨("a"), Dtype.object, [Cell.null]⟩]⟩]⟩ 0
    defaultCleaningOptions (by decide)

/-! ## Rate-limiter lemmas -/

theorem alistGet_put_self {K V : Type} [BEq K] [LawfulBEq K] (k : K) (v : V)
    (l : List (K × V)) : alistGet k (alistPut k v l) = some v := by
  induction l with
  | nil => simp [alistGet, alistPut]
  | cons p rest ih =>
    rw [alistPut]
    by_cases h : p.1 == k
    · rw [if_pos h]
      simp [alistGet]
    · rw [if_neg h]
      rw [alistGet, if_neg h]
      exact ih

theorem alistPut_put_self {K V : Type} [BEq K] [LawfulBEq K] (k : K) (v w : V)
    (l : List (K × V)) : alistPut k v (alistPut k w l) = alistPut k v l := by
  induction l with
  | nil => simp [alistPut]
  | cons p rest ih =>
    rw [alistPut]
    by_cases h : p.1 == k
    · rw [if_pos h]
      rw [alistPut, if_pos (by simp), alistPut, if_pos h]
    · rw [if_neg h]
      rw [alistPut, if_neg h, alistPut, if_neg h, ih]

/-- A single all-purpose step lemma: from a state where the identity's
map is exactly `[(m, k)]` and the call is in bucket `m`, the call is
admitted (with `remaining = max - (k+1)` and the count bumped) when
`k < max`, and denied (with the retry hint, the map unchanged) when
`k ≥ max`. -/
theorem rl_step {tracker : Tracker} {user : String} {t : ℚ} {m : Int} {k : Nat}
    (hget : alistGet user tracker = some [(m, k)]) (hm : ⌊t / 60⌋ = m) :
    validate_api_usage tracker user t =
      if k ≥ limits.MAX_API_CALLS_PER_MINUTE then
        (⟨false, some (60 - (t - 60 * m)), none⟩, alistPut user [(m, k)] tracker)
      else
        (⟨true, none, some ((limits.MAX_API_CALLS_PER_MINUTE : Int) - (k + 1))⟩,
         alistPut user [(m, k + 1)] tracker) := by
  unfold validate_api_usage
  rw [hm, hget]
  simp only [Option.isNone_some, Bool.false_eq_true, if_false, Option.getD_some]
  rw [hget]
  simp only [Option.getD_some]
  have hfilt : ([(m, k)] : MinuteMap).filter (fun p => ¬ (p.1 < m - 1)) = [(m, k)] := by
    rw [List.filter_cons, List.filter_nil]
    rw [if_pos (by simp only [decide_eq_true_eq]; omega)]
  rw [hfilt]
  have hcnt : alistGet m ([(m, k)] : MinuteMap) = some k := by
    rw [alistGet, if_pos (by simp)]
  rw [hcnt]
  simp only [Option.getD_some]
  have hput : alistPut m (k + 1) ([(m, k)] : MinuteMap) = [(m, k + 1)] := by
    rw [alistPut, if_pos (by simp)]
  by_cases hk : k ≥ limits.MAX_API_CALLS_PER_MINUTE
  · rw [if_pos hk, if_pos hk]
  · rw [if_neg hk, if_neg hk, hput]

/-- A fresh identity is registered with an empty map before the check,
so its first call is admitted with full quota minus one. -/
theorem rl_step_fresh {tracker : Tracker} {user : String} {t : ℚ} {m : Int}
    (hget : alistGet user tracker = none) (hm : ⌊t / 60⌋ = m) :
    validate_api_usage tracker user t =
      (⟨true, none, some ((limits.MAX_API_CALLS_PER_MINUTE : Int) - 1)⟩,
       alistPut user [(m, 1)] (alistPut user ([] : MinuteMap) tracker)) := by
  unfold validate_api_usage
  rw [hm, hget]
  simp only [Option.isNone_none, if_true]
  rw [alistGet_put_self]
  simp only [Option.getD_some, List.filter_nil]
  have hcnt : alistGet m ([] : MinuteMap) = none := rfl
  rw [hcnt]
  simp only [Option.getD_none]
  rw [if_neg (by decide)]
  have hput : alistPut m (0 + 1) ([] : MinuteMap) = [(m, 1)] := rfl
  rw [hput]
  norm_num

/-- A call in a later bucket `m' > m` from a state `[(m, k)]` is
admitted with full quota minus one: the old bucket's count is not
consulted (and it is pruned entirely when `m' ≥ m + 2`). -/
theorem rl_step_next {tracker : Tracker} {user : String} {t : ℚ} {m m' : Int} {k : Nat}
    (hget : alistGet user tracker = some [(m, k)]) (hm : ⌊t / 60⌋ = m')
    (hlt : m < m') :
    (validate_api_usage tracker user t).1 =
      ⟨true, none, some ((limits.MAX_API_CALLS_PER_MINUTE : Int) - 1)⟩ := by
  unfold validate_api_usage
  rw [hm, hget]
  simp only [Option.isNone_some, Bool.false_eq_true, if_false, Option.getD_some]
  rw [hget]
  simp only [Option.getD_some]
  have hcnt : alistGet m' (([(m, k)] : MinuteMap).filter
      (fun p => ¬ (p.1 < m' - 1))) = none := by
    by_cases hkeep : (m < m' - 1)
    · rw [List.filter_cons, List.filter_nil,
        if_neg (by simp only [decide_eq_true_eq]; omega)]
      rfl
    · rw [List.filter_cons, List.filter_nil,
        if_pos (by simp only [decide_eq_true_eq]; omega)]
      rw [alistGet, if_neg (by simp only [beq_iff_eq]; omega), alistGet]
  rw [hcnt]
  simp only [Option.getD_none]
  rw [if_neg (by decide)]
  norm_num

theorem runCalls_cons (tracker : Tracker) (user : String) (t : ℚ) (ts : List ℚ) :
    runCalls tracker user (t :: ts) =
      ((validate_api_usage tracker user t).1 ::
        (runCalls (validate_api_usage tracker user t).2 user ts).1,
       (runCalls (validate_api_usage tracker user t).2 user ts).2) := rfl

/-! ## Claim C2 (rate-limiter admission schedule) -/

/-- C2: for a fresh identity, eleven consecutive calls inside one
minute bucket `m` are decided as: the first ten admitted, reporting
`remaining = 10 - new_count` (9 down to 0), the eleventh denied with
`retry_after = 60 - (t mod 60)` (here `t - 60*m`, since `⌊t/60⌋ = m`);
and a further call in the next bucket `m + 1` is admitted again at
full quota. -/
theorem c2_rate_limiter (tracker : Tracker) (user : String) (m : Int)
    (t1 t2 t3 t4 t5 t6 t7 t8 t9 t10 t11 t' : ℚ)
    (hfresh : alistGet user tracker = none)
    (h1 : ⌊t1 / 60⌋ = m) (h2 : ⌊t2 / 60⌋ = m) (h3 : ⌊t3 / 60⌋ = m)
    (h4 : ⌊t4 / 60⌋ = m) (h5 : ⌊t5 / 60⌋ = m) (h6 : ⌊t6 / 60⌋ = m)
    (h7 : ⌊t7 / 60⌋ = m) (h8 : ⌊t8 / 60⌋ = m) (h9 : ⌊t9 / 60⌋ = m)
    (h10 : ⌊t10 / 60⌋ = m) (h11 : ⌊t11 / 60⌋ = m)
    (h' : ⌊t' / 60⌋ = m + 1) :
    (runCalls tracker user [t1, t2, t3, t4, t5, t6, t7, t8, t9, t10, t11]).1 =
      [⟨true, none, some 9⟩, ⟨true, none, some 8⟩, ⟨true, none, some 7⟩,
       ⟨true, none, some 6⟩, ⟨true, none, some 5⟩, ⟨true, none, some 4⟩,
       ⟨true, none, some 3⟩, ⟨true, none, some 2⟩, ⟨true, none, some 1⟩,
       ⟨true, none, some 0⟩, ⟨false, some (60 - (t11 - 60 * m)), none⟩]
    ∧ (validate_api_usage
        (runCalls tracker user [t1, t2, t3, t4, t5, t6, t7, t8, t9, t10, t11]).2
        user t').1 = ⟨true, none, some 9⟩ := by
  have hmax : limits.MAX_API_CALLS_PER_MINUTE = 10 := rfl
  have e1 : validate_api_usage tracker user t1 =
      (⟨true, none, some 9⟩, alistPut user [(m, 1)] tracker) := by
    rw [rl_step_fresh hfresh h1, alistPut_put_self]
    norm_num [hmax]
  have e2 : validate_api_usage (alistPut user [(m, 1)] tracker) user t2 =
      (⟨true, none, some 8⟩, alistPut user [(m, 2)] tracker) := by
    rw [rl_step (alistGet_put_self user [(m, 1)] tracker) h2,
      if_neg (by decide), alistPut_put_self]
    norm_num [hmax]
  have e3 : validate_api_usage (alistPut user [(m, 2)] tracker) user t3 =
      (⟨true, none, some 7⟩, alistPut user [(m, 3)] tracker) := by
    rw [rl_step (alistGet_put_self user [(m, 2)] tracker) h3,
      if_neg (by decide), alistPut_put_self]
    norm_num [hmax]
  have e4 : validate_api_usage (alistPut user [(m, 3)] tracker) user t4 =
      (⟨true, none, some 6⟩, alistPut user [(m, 4)] tracker) := by
    rw [rl_step (alistGet_put_self user [(m, 3)] tracker) h4,
      if_neg (by decide), alistPut_put_self]
    norm_num [hmax]
  have e5 : validate_api_usage (alistPut user [(m, 4)] tracker) user t5 =
      (⟨true, none, some 5⟩, alistPut user [(m, 5)] tracker) := by
    rw [rl_step (alistGet_put_self user [(m, 4)] tracker) h5,
      if_neg (by decide), alistPut_put_self]
    norm_num [hmax]
  have e6 : validate_api_usage (alistPut user [(m, 5)] tracker) user t6 =
      (⟨true, none, some 4⟩, alistPut user [(m, 6)] tracker) := by
    rw [rl_step (alistGet_put_self user [(m, 5)] tracker) h6,
      if_neg (by decide), alistPut_put_self]
    norm_num [hmax]
  have e7 : validate_api_usage (alistPut user [(m, 6)] tracker) user t7 =
      (⟨true, none, some 3⟩, alistPut user [(m, 7)] tracker) := by
    rw [rl_step (alistGet_put_self user [(m, 6)] tracker) h7,
      if_neg (by decide), alistPut_put_self]
    norm_num [hmax]
  have e8 : validate_api_usage (alistPut user [(m, 7)] tracker) user t8 =
      (⟨true, none, some 2⟩, alistPut user [(m, 8)] tracker) := by
    rw [rl_step (alistGet_put_self user [(m, 7)] tracker) h8,
      if_neg (by decide), alistPut_put_self]
    norm_num [hmax]
  have e9 : validate_api_usage (alistPut user [(m, 8)] tracker) user t9 =
      (⟨true, none, some 1⟩, alistPut user [(m, 9)] tracker) := by
    rw [rl_step (alistGet_put_self user [(m, 8)] tracker) h9,
      if_neg (by decide), alistPut_put_self]
    norm_num [hmax]
  have e10 : validate_api_usage (alistPut user [(m, 9)] tracker) user t10 =
      (⟨true, none, some 0⟩, alistPut user [(m, 10)] tracker) := by
    rw [rl_step (alistGet_put_self user [(m, 9)] tracker) h10,
      if_neg (by decide), alistPut_put_self]
    norm_num [hmax]
  have e11 : validate_api_usage (alistPut user [(m, 10)] tracker) user t11 =
      (⟨false, some (60 - (t11 - 60 * m)), none⟩, alistPut user [(m, 10)] tracker) := by
    rw [rl_step (alistGet_put_self user [(m, 10)] tracker) h11,
      if_pos (by decide), alistPut_put_self]
  constructor
  · simp only [runCalls_cons, e1, e2, e3, e4, e5, e6, e7, e8, e9, e10, e11, runCalls]
  · have hst : (runCalls tracker user
        [t1, t2, t3, t4, t5, t6, t7, t8, t9, t10, t11]).2 =
        alistPut user [(m, 10)] tracker := by
      simp only [runCalls_cons, e1, e2, e3, e4, e5, e6, e7, e8, e9, e10, e11, runCalls]
    rw [hst, rl_step_next (alistGet_put_self user [(m, 10)] tracker) h' (by omega)]
    decide

/-- C2 (witness): a fresh identity, eleven calls at seconds 1..11 of
minute 0, and a twelfth call at second 61 (minute 1). -/
theorem c2_rate_limiter_witness :
    (runCalls [] ("u") [1, 2, 3, 4, 5, 6, 7, 8, 9, 10, 11]).1 =
      [⟨true, none, some 9⟩, ⟨true, none, some 8⟩, ⟨true, none, some 7⟩,
       ⟨true, none, some 6⟩, ⟨true, none, some 5⟩, ⟨true, none, some 4⟩,
       ⟨true, none, some 3⟩, ⟨true, none, some 2⟩, ⟨true, none, some 1⟩,
       ⟨true, none, some 0⟩, ⟨false, some (60 - ((11 : ℚ) - 60 * (0 : Int))), none⟩]
    ∧ (validate_api_usage
        (runCalls [] ("u") [1, 2, 3, 4, 5, 6, 7, 8, 9, 10, 11]).2
        ("u") 61).1 = ⟨true, none, some 9⟩ :=
  c2_rate_limiter [] ("u") 0 1 2 3 4 5 6 7 8 9 10 11 61 rfl
    (by norm_num) (by norm_num) (by norm_num) (by norm_num) (by norm_num)
    (by norm_num) (by norm_num) (by norm_num) (by norm_num) (by norm_num)
    (by norm_num) (by norm_num)

/-! ## Claim C9 (bucket retention) -/

/-- The identity's map after a check: the pruned map, with the current
bucket incremented when the call was admitted. -/
theorem validate_state (tracker : Tracker) (user : String) (t : ℚ) :
    alistGet user (validate_api_usage tracker user t).2 =
      some (if (alistGet ⌊t / 60⌋ (((alistGet user tracker).getD []).filter
              (fun p => ¬ (p.1 < ⌊t / 60⌋ - 1)))).getD 0
            ≥ limits.MAX_API_CALLS_PER_MINUTE
        then ((alistGet user tracker).getD []).filter
          (fun p => ¬ (p.1 < ⌊t / 60⌋ - 1))
        else alistPut ⌊t / 60⌋
          ((alistGet ⌊t / 60⌋ (((alistGet user tracker).getD []).filter
            (fun p => ¬ (p.1 < ⌊t / 60⌋ - 1)))).getD 0 + 1)
          (((alistGet user tracker).getD []).filter
            (fun p => ¬ (p.1 < ⌊t / 60⌋ - 1)))) := by
  unfold validate_api_usage
  cases hoption : alistGet user tracker with
  | none =>
    simp only [Option.isNone_none, if_true, Option.getD_none]
    rw [alistGet_put_self]
    simp only [Option.getD_some, List.filter_nil]
    have hz : ¬ ((alistGet (⌊t / 60⌋ : Int) ([] : MinuteMap)).getD 0
        ≥ limits.MAX_API_CALLS_PER_MINUTE) := by
      show ¬ ((0 : Nat) ≥ 10)
      omega
    rw [if_neg hz, if_neg hz, alistGet_put_self]
  | some M =>
    simp only [Option.isNone_some, Bool.false_eq_true, if_false, Option.getD_some]
    rw [hoption]
    simp only [Option.getD_some]
    by_cases hc : (alistGet ⌊t / 60⌋ (M.filter
        (fun p => ¬ (p.1 < ⌊t / 60⌋ - 1)))).getD 0 ≥ limits.MAX_API_CALLS_PER_MINUTE
    · rw [if_pos hc, if_pos hc, alistGet_put_self]
    · rw [if_neg hc, if_neg hc, alistGet_put_self]

theorem mem_alistPut {K V : Type} [BEq K] {k : K} {v : V} {l : List (K × V)}
    {p : K × V} (h : p ∈ alistPut k v l) : p = (k, v) ∨ p ∈ l := by
  induction l with
  | nil =>
    rw [alistPut] at h
    rcases List.mem_cons.mp h with h | h
    · exact Or.inl h
    · cases h
  | cons q rest ih =>
    rw [alistPut] at h
    by_cases hq : q.1 == k
    · rw [if_pos hq] at h
      rcases List.mem_cons.mp h with h | h
      · exact Or.inl h
      · exact Or.inr (List.mem_cons_of_mem q h)
    · rw [if_neg hq] at h
      rcases List.mem_cons.mp h with h | h
      · exact Or.inr (h ▸ List.mem_cons_self q rest)
      · rcases ih h with h' | h'
        · exact Or.inl h'
        · exact Or.inr (List.mem_cons_of_mem q h')

theorem keys_nodup_alistPut {K V : Type} [BEq K] [LawfulBEq K] {k : K} {v : V}
    {l : List (K × V)} (hn : (l.map Prod.fst).Nodup) :
    ((alistPut k v l).map Prod.fst).Nodup := by
  induction l with
  | nil => simp [alistPut]
  | cons q rest ih =>
    rw [alistPut]
    by_cases hq : q.1 == k
    · rw [if_pos hq]
      have : q.1 = k := eq_of_beq hq
      simpa [← this] using hn
    · rw [if_neg hq]
      rw [List.map_cons, List.nodup_cons] at hn ⊢
      refine ⟨?_, ih hn.2⟩
      intro hmem
      obtain ⟨p, hp, hfst⟩ := List.mem_map.mp hmem
      rcases mem_alistPut hp with rfl | hp'
      · have hqk : q.1 = k := by simpa using hfst.symm
        exact absurd (by rw [hqk]; exact beq_self_eq_true k) hq
      · exact hn.1 (List.mem_map.mpr ⟨p, hp', hfst⟩)

theorem all_eq_length_le_one {l : List Int} {b : Int} (hn : l.Nodup)
    (hs : ∀ x ∈ l, x = b) : l.length ≤ 1 := by
  match l with
  | [] => simp
  | [x] => simp
  | x :: y :: rest =>
    exfalso
    have hx : x = b := hs x (by simp)
    have hy : y = b := hs y (by simp)
    rw [List.nodup_cons] at hn
    exact hn.1 (by rw [hx, ← hy]; exact List.mem_cons_self y rest)

theorem nodup_length_le_two {l : List Int} {a b : Int} (hn : l.Nodup)
    (hs : ∀ x ∈ l, x = a ∨ x = b) : l.length ≤ 2 := by
  match l with
  | [] => simp
  | x :: xs =>
    rw [List.nodup_cons] at hn
    have hxs : ∀ y ∈ xs, y = a ∨ y = b :=
      fun y hy => hs y (List.mem_cons_of_mem x hy)
    have hlen : xs.length ≤ 1 := by
      rcases hs x (List.mem_cons_self x xs) with rfl | rfl
      · apply all_eq_length_le_one hn.2
        intro y hy
        rcases hxs y hy with rfl | rfl
        · exact absurd hy hn.1
        · rfl
      · apply all_eq_length_le_one hn.2
        intro y hy
        rcases hxs y hy with rfl | rfl
        · rfl
        · exact absurd hy hn.1
    simp only [List.length_cons]
    omega

/-- C9: after a rate-limiter check at time `t`, every minute bucket
still stored for that identity is at least `⌊t/60⌋ - 1`; and provided
every bucket stored before the call is at most the current minute
(true whenever the clock is monotone) and the stored bucket keys are
distinct (a Python dict invariant), at most two buckets — the current
and the previous minute — remain. -/
theorem c9_bucket_retention (tracker : Tracker) (user : String) (t : ℚ) :
    (∀ p ∈ (alistGet user (validate_api_usage tracker user t).2).getD ([] : MinuteMap),
      ⌊t / 60⌋ - 1 ≤ p.1)
    ∧ ((∀ p ∈ (alistGet user tracker).getD ([] : MinuteMap), p.1 ≤ ⌊t / 60⌋) →
      (((alistGet user tracker).getD ([] : MinuteMap)).map Prod.fst).Nodup →
      ((alistGet user (validate_api_usage tracker user t).2).getD
        ([] : MinuteMap)).length ≤ 2) := by
  rw [validate_state tracker user t]
  simp only [Option.getD_some]
  set m : Int := ⌊t / 60⌋ with hm
  set pruned : MinuteMap := ((alistGet user tracker).getD []).filter
    (fun p => ¬ (p.1 < m - 1)) with hpruned
  have hpr_mem : ∀ p ∈ pruned, m - 1 ≤ p.1 ∧ p ∈ (alistGet user tracker).getD [] := by
    intro p hp
    rw [hpruned] at hp
    have h1 := (List.mem_filter.mp hp).1
    have h2 := (List.mem_filter.mp hp).2
    simp only [decide_eq_true_eq] at h2
    exact ⟨by omega, h1⟩
  constructor
  · intro p hp
    by_cases hc : (alistGet m pruned).getD 0 ≥ limits.MAX_API_CALLS_PER_MINUTE
    · rw [if_pos hc] at hp
      exact (hpr_mem p hp).1
    · rw [if_neg hc] at hp
      rcases mem_alistPut hp with rfl | hp'
      · simp
      · exact (hpr_mem p hp').1
  · intro hle hnodup
    have hkeys : ∀ x ∈ pruned.map Prod.fst, x = m - 1 ∨ x = m := by
      intro x hx
      obtain ⟨p, hp, rfl⟩ := List.mem_map.mp hx
      have h1 := (hpr_mem p hp).1
      have h2 := hle p (hpr_mem p hp).2
      omega
    have hkn : (pruned.map Prod.fst).Nodup := by
      apply List.Nodup.sublist _ hnodup
      rw [hpruned]
      exact List.Sublist.map _ (List.filter_sublist _)
    by_cases hc : (alistGet m pruned).getD 0 ≥ limits.MAX_API_CALLS_PER_MINUTE
    · rw [if_pos hc]
      calc pruned.length = (pruned.map Prod.fst).length := (List.length_map _ _).symm
        _ ≤ 2 := nodup_length_le_two hkn hkeys
    · rw [if_neg hc]
      set put := alistPut m ((alistGet m pruned).getD 0 + 1) pruned with hput
      have hputkeys : ∀ x ∈ put.map Prod.fst, x = m - 1 ∨ x = m := by
        intro x hx
        obtain ⟨p, hp, rfl⟩ := List.mem_map.mp hx
        rcases mem_alistPut hp with rfl | hp'
        · exact Or.inr rfl
        · exact hkeys _ (List.mem_map.mpr ⟨p, hp', rfl⟩)
      have hputn : (put.map Prod.fst).Nodup := keys_nodup_alistPut hkn
      calc put.length = (put.map Prod.fst).length := (List.length_map _ _).symm
        _ ≤ 2 := nodup_length_le_two hputn hputkeys

/-- C9 (witness): an identity holding bucket 5 with 3 calls, checked at
`t = 360` (minute 6): afterwards only buckets 5 and 6 remain. -/
theorem c9_bucket_retention_witness :
    (∀ p ∈ (alistGet ("u") (validate_api_usage [(("u"), [((5 : Int), 3)])]
        ("u") 360).2).getD ([] : MinuteMap), ⌊(360 : ℚ) / 60⌋ - 1 ≤ p.1)
    ∧ ((alistGet ("u") (validate_api_usage [(("u"), [((5 : Int), 3)])]
        ("u") 360).2).getD ([] : MinuteMap)).length ≤ 2 := by
  constructor
  · exact (c9_bucket_retention [(("u"), [((5 : Int), 3)])] ("u") 360).1
  · apply (c9_bucket_retention [(("u"), [((5 : Int), 3)])] ("u") 360).2
    · intro p hp
      have hp' : p = ((5 : Int), 3) := by
        simpa [alistGet] using hp
      rw [hp']
      norm_num
    · simp [alistGet]
